import Mathlib

/-!
Verification of the raygui immediate-mode GUI core (`src/raygui.h`).

The development shallowly embeds the style table, the interaction state
machine of sliders/buttons/scrollbars, the RGB/HSV conversions, the
single-line text layout of `GuiDrawText`, the icon-marker parser and the
UTF-8 decoder.  C `float` arithmetic is modelled by exact rational
arithmetic (`ℚ`), C `int` by `ℤ` and byte strings by `List ℕ` with the
NUL terminator modelled as reads past the end returning 0.  A C
`(int)`/`(long)` cast of a float is truncation toward zero, modelled by
`ctrunc` below.
-/

namespace Raygui

/-- Truncation toward zero, the semantics of a C `(int)` or `(long)` cast
applied to a (here: exact rational) floating point value. -/
def ctrunc (q : ℚ) : ℤ := if q < 0 then ⌈q⌉ else ⌊q⌋

/-! ## UTF-8 decoding: `GetCodepointNext` (raygui.h lines 9258-9294)

A byte string is a `List ℕ` of values `< 256`; reading at an index past
the end yields `0`, matching the C NUL terminator that the decoder is
specified to stop at. -/

/-- Byte of `bytes` at absolute index `i`, with the NUL terminator (and
anything past it) read as `0`. -/
def byteAt (bytes : List ℕ) (i : ℕ) : ℕ := bytes.getD i 0

/-- Embedding of `GetCodepointNext(&text[i], &codepointSize)`: returns
`(codepoint, codepointSize)`.  Mirrors the source's mask tests
`0xf0 == (0xf8 & b)` etc. and its continuation-byte checks
`(b & 0xC0) ^ 0x80`. -/
def getCodepointNext (bytes : List ℕ) (i : ℕ) : ℕ × ℕ :=
  if byteAt bytes i &&& 0xf8 = 0xf0 then
    -- 4 byte UTF-8 codepoint
    if (byteAt bytes (i + 1) &&& 0xC0) ^^^ 0x80 ≠ 0 ∨
        (byteAt bytes (i + 2) &&& 0xC0) ^^^ 0x80 ≠ 0 ∨
        (byteAt bytes (i + 3) &&& 0xC0) ^^^ 0x80 ≠ 0 then
      (0x3f, 1)
    else
      (((byteAt bytes i &&& 0x07) <<< 18) ||| ((byteAt bytes (i + 1) &&& 0x3f) <<< 12) |||
        ((byteAt bytes (i + 2) &&& 0x3f) <<< 6) ||| (byteAt bytes (i + 3) &&& 0x3f), 4)
  else if byteAt bytes i &&& 0xf0 = 0xe0 then
    -- 3 byte UTF-8 codepoint
    if (byteAt bytes (i + 1) &&& 0xC0) ^^^ 0x80 ≠ 0 ∨
        (byteAt bytes (i + 2) &&& 0xC0) ^^^ 0x80 ≠ 0 then
      (0x3f, 1)
    else
      (((byteAt bytes i &&& 0x0f) <<< 12) ||| ((byteAt bytes (i + 1) &&& 0x3f) <<< 6) |||
        (byteAt bytes (i + 2) &&& 0x3f), 3)
  else if byteAt bytes i &&& 0xe0 = 0xc0 then
    -- 2 byte UTF-8 codepoint
    if (byteAt bytes (i + 1) &&& 0xC0) ^^^ 0x80 ≠ 0 then
      (0x3f, 1)
    else
      (((byteAt bytes i &&& 0x1f) <<< 6) ||| (byteAt bytes (i + 1) &&& 0x3f), 2)
  else if byteAt bytes i &&& 0x80 = 0 then
    -- 1 byte UTF-8 codepoint
    (byteAt bytes i, 1)
  else
    (0x3f, 1)

/-- Cursor advance used by the per-line draw loop of `GuiDrawText`
(lines 8545-8552): the decoded size, overridden to 1 byte whenever the
decoded codepoint is the fallback `0x3f`. -/
def drawCursorAdvance (bytes : List ℕ) (i : ℕ) : ℕ :=
  if (getCodepointNext bytes i).1 = 0x3f then 1 else (getCodepointNext bytes i).2

/-- A continuation byte per the decoder's check: `(b & 0xC0) ^ 0x80 == 0`. -/
def isCont (b : ℕ) : Prop := (b &&& 0xC0) ^^^ 0x80 = 0

instance (b : ℕ) : Decidable (isCont b) := by unfold isCont; infer_instance

/-- The lead-byte class recognised by the decoder: `some k` when the byte
at `i` announces a `k`-byte sequence, `none` for a bad lead byte. -/
def leadClass (b : ℕ) : Option ℕ :=
  if b &&& 0xf8 = 0xf0 then some 4
  else if b &&& 0xf0 = 0xe0 then some 3
  else if b &&& 0xe0 = 0xc0 then some 2
  else if b &&& 0x80 = 0 then some 1
  else none

/-- Well-formedness of the byte sequence starting at `i`, in the sense of
the decoder's own checks: a recognised lead byte followed by the required
number of continuation bytes. -/
def wellFormedAt (bytes : List ℕ) (i : ℕ) : Prop :=
  (leadClass (byteAt bytes i) = some 1) ∨
  (leadClass (byteAt bytes i) = some 2 ∧ isCont (byteAt bytes (i + 1))) ∨
  (leadClass (byteAt bytes i) = some 3 ∧ isCont (byteAt bytes (i + 1)) ∧
    isCont (byteAt bytes (i + 2))) ∨
  (leadClass (byteAt bytes i) = some 4 ∧ isCont (byteAt bytes (i + 1)) ∧
    isCont (byteAt bytes (i + 2)) ∧ isCont (byteAt bytes (i + 3)))

instance (bytes : List ℕ) (i : ℕ) : Decidable (wellFormedAt bytes i) := by
  unfold wellFormedAt
  infer_instance

/-- The encoded length announced by a well-formed sequence's lead byte. -/
def encodedLen (bytes : List ℕ) (i : ℕ) : ℕ := (leadClass (byteAt bytes i)).getD 1

/-! ## `GetTextIcon` (raygui.h lines 8345-8372)

The parser returns the icon id (the C out-parameter `*iconId`, `-1`
when no marker is recognised) and the number of bytes the text cursor is
advanced by (`0` when no marker is recognised). -/

/-- Embedding of `TextToInteger` restricted to the digit strings the icon
parser hands it (no sign handling is exercised there: the buffer holds
only decimal digits). -/
def digitsToInt (ds : List ℕ) : ℤ :=
  ds.foldl (fun v d => v * 10 + ((d : ℤ) - 48)) 0

/-- Decimal digit test `(b >= '0') && (b <= '9')` of the icon scanner. -/
def isDigit (b : ℕ) : Prop := 48 ≤ b ∧ b ≤ 57

instance (b : ℕ) : Decidable (isDigit b) := by unfold isDigit; infer_instance

/-- Length of the digit run collected by the scanner's
`while ((pos < 4) && digit)` loop, i.e. the final `pos - 1`. -/
def digitRunLen (bytes : List ℕ) : ℕ :=
  if isDigit (byteAt bytes 1) then
    if isDigit (byteAt bytes 2) then
      if isDigit (byteAt bytes 3) then 3 else 2
    else 1
  else 0

/-- Embedding of `GetTextIcon(text, &iconId)`: scans a leading
`#` + up-to-3-digits + `#` marker.  Result: `(iconId, advance)` where
`iconId` is the C out-parameter (`-1` when no marker is recognised) and
`advance` is how far the returned text pointer moved. -/
def getTextIcon (bytes : List ℕ) : ℤ × ℕ :=
  if byteAt bytes 0 = 35 then
    let n := digitRunLen bytes
    let pos := 1 + n
    if byteAt bytes pos = 35 then
      let iconId := digitsToInt ((bytes.drop 1).take n)
      if 0 ≤ iconId then (iconId, pos + 1) else (iconId, 0)
    else (-1, 0)
  else (-1, 0)

/-! ## StyleTable: `GuiSetStyle` / `GuiGetStyle` / `GuiLoadStyleDefault`
(raygui.h lines 1565-1582, 7778-7859)

`guiStyle` is a flat `unsigned int` array of
`RAYGUI_MAX_CONTROLS * (RAYGUI_MAX_PROPS_BASE + RAYGUI_MAX_PROPS_EXTENDED)`
slots, modelled as `ℕ → ℕ` holding 32-bit values (indices outside the
array are undefined behaviour in C and unconstrained here; the claims
only quantify over in-range ids).  `int` values pass through the
`unsigned int` slots by 32-bit wrap-around. -/

def RAYGUI_MAX_CONTROLS : ℕ := 16
def RAYGUI_MAX_PROPS_BASE : ℕ := 16
def RAYGUI_MAX_PROPS_EXTENDED : ℕ := 8

/-- Conversion of an `int` argument into the `unsigned int` array slot. -/
def toUInt32 (v : ℤ) : ℕ := (v % 4294967296).toNat

/-- Conversion of an `unsigned int` slot back to the `int` return value. -/
def ofUInt32 (n : ℕ) : ℤ := if n < 2147483648 then (n : ℤ) else (n : ℤ) - 4294967296

/-- Flat index `control*(RAYGUI_MAX_PROPS_BASE + RAYGUI_MAX_PROPS_EXTENDED) + property`. -/
def styleIndex (control property : ℕ) : ℕ :=
  control * (RAYGUI_MAX_PROPS_BASE + RAYGUI_MAX_PROPS_EXTENDED) + property

def writeSlot (f : ℕ → ℕ) (i v : ℕ) : ℕ → ℕ := fun j => if j = i then v else f j

/-- The global style state: the lazily-set `guiStyleLoaded` flag and the
`guiStyle` array. -/
structure StyleState where
  loaded : Bool
  style : ℕ → ℕ

/-- Body of `GuiSetStyle` after the lazy-load check: write the slot and,
for a base property of control 0 (DEFAULT), propagate the value to the
same slot of every other control id. -/
def setStyleLoaded (s : StyleState) (control property : ℕ) (value : ℤ) : StyleState :=
  { loaded := s.loaded
    style :=
      if control = 0 ∧ property < RAYGUI_MAX_PROPS_BASE then
        (List.range' 1 (RAYGUI_MAX_CONTROLS - 1)).foldl
          (fun g i => writeSlot g (styleIndex i property) (toUInt32 value))
          (writeSlot s.style (styleIndex control property) (toUInt32 value))
      else writeSlot s.style (styleIndex control property) (toUInt32 value) }

/-- The `GuiSetStyle` calls performed by `GuiLoadStyleDefault`, in source
order, as `(control, property, value)` triples (the function body is a
straight-line sequence of such calls; its trailing default-font setup
touches only the externally-owned `guiFont`, not the style state). -/
def defaultStyleSets : List (ℕ × ℕ × ℤ) :=
  [(0, 0, 0x838383ff), (0, 1, 0xc9c9c9ff), (0, 2, 0x686868ff),
   (0, 3, 0x5bb2d9ff), (0, 4, 0xc9effeff), (0, 5, 0x6c9bbcff),
   (0, 6, 0x0492c7ff), (0, 7, 0x97e8ffff), (0, 8, 0x368bafff),
   (0, 9, 0xb5c1c2ff), (0, 10, 0xe6e9e9ff), (0, 11, 0xaeb7b8ff),
   (0, 12, 1), (0, 13, 0), (0, 14, 1),
   (0, 16, 10), (0, 17, 1), (0, 18, 0x90abb5ff), (0, 19, 0xf5f5f5ff),
   (0, 20, 15), (0, 21, 1),
   (1, 14, 0), (2, 12, 2), (4, 13, 4), (5, 13, 4), (6, 13, 4), (6, 14, 2),
   (8, 13, 0), (8, 14, 1), (9, 13, 4), (9, 14, 0), (10, 13, 0), (10, 14, 0),
   (11, 13, 0), (11, 14, 0), (15, 13, 8), (15, 14, 0),
   (3, 16, 2), (4, 16, 16), (4, 17, 1), (5, 16, 1), (6, 16, 1),
   (7, 16, 32), (7, 17, 2), (8, 16, 16), (8, 17, 2), (11, 16, 24),
   (11, 17, 2), (14, 12, 0), (14, 17, 0), (14, 16, 6), (14, 18, 0),
   (14, 19, 16), (14, 20, 0), (14, 21, 12), (12, 16, 28), (12, 17, 2),
   (12, 18, 12), (12, 19, 1), (13, 16, 8), (13, 17, 16), (13, 18, 8),
   (13, 19, 8), (13, 20, 2)]

/-- Embedding of `GuiLoadStyleDefault`: set `guiStyleLoaded` first (to
break the call cycle), then perform the property sets. -/
def guiLoadStyleDefault (s : StyleState) : StyleState :=
  defaultStyleSets.foldl (fun t o => setStyleLoaded t o.1 o.2.1 o.2.2) ⟨true, s.style⟩

/-- Embedding of `GuiSetStyle`: lazily load defaults, then set. -/
def guiSetStyle (s : StyleState) (control property : ℕ) (value : ℤ) : StyleState :=
  setStyleLoaded (if s.loaded then s else guiLoadStyleDefault s) control property value

/-- Embedding of `GuiGetStyle`: lazily load defaults, then read.  Returns
the read value together with the (possibly lazily initialised) state. -/
def guiGetStyle (s : StyleState) (control property : ℕ) : ℤ × StyleState :=
  let t := if s.loaded then s else guiLoadStyleDefault s
  (ofUInt32 (t.style (styleIndex control property)), t)

/-- One `GuiSetStyle(control, property, value)` call in a trace. -/
structure SetOp where
  control : ℕ
  property : ℕ
  value : ℤ

/-- Apply a trace of `GuiSetStyle` calls in order. -/
def applySets (s : StyleState) (ops : List SetOp) : StyleState :=
  ops.foldl (fun t o => guiSetStyle t o.control o.property o.value) s

/-- A call with in-range control and property ids (out-of-range ids are
undefined behaviour in the source). -/
def validOp (o : SetOp) : Prop :=
  o.control < RAYGUI_MAX_CONTROLS ∧
  o.property < RAYGUI_MAX_PROPS_BASE + RAYGUI_MAX_PROPS_EXTENDED

instance (o : SetOp) : Decidable (validOp o) := by unfold validOp; infer_instance

/-- A call that writes control `c`'s slot of property `p`: either a
direct write, or a DEFAULT write of `p` (which propagates when `p` is a
base property). -/
def touches (o : SetOp) (c p : ℕ) : Prop :=
  (o.control = c ∧ o.property = p) ∨ (o.control = 0 ∧ o.property = p)

instance (o : SetOp) (c p : ℕ) : Decidable (touches o c p) := by
  unfold touches
  infer_instance

/-! ## Global state setters (raygui.h lines 1513-1541)

`guiState` is a C enum stored and set through `int` casts
(`GuiSetState` casts an arbitrary `int`), so it is modelled as `ℤ`. -/

def STATE_NORMAL : ℤ := 0
def STATE_FOCUSED : ℤ := 1
def STATE_PRESSED : ℤ := 2
def STATE_DISABLED : ℤ := 3

/-- Embedding of `GuiEnable`: the new value of `guiState`. -/
def guiEnable (s : ℤ) : ℤ := if s = STATE_DISABLED then STATE_NORMAL else s

/-- Embedding of `GuiDisable`: the new value of `guiState`. -/
def guiDisable (s : ℤ) : ℤ := if s = STATE_NORMAL then STATE_DISABLED else s

/-- Embedding of `GuiSetAlpha`: the new value of `guiAlpha`. -/
def guiSetAlpha (alpha : ℚ) : ℚ :=
  if alpha < 0 then 0 else if alpha > 1 then 1 else alpha

/-! ## Exclusive-drag arbitration: `GuiSliderPro` / `GuiButton`
(raygui.h lines 3093-3204, 1979-2010, 1068)

The pointer hit test `CheckCollisionPointRec` is an external raylib
collaborator, so it is a parameter `collides` of the control embeddings;
the claims hold for every hit-test function. -/

structure Rect where
  x : ℚ
  y : ℚ
  width : ℚ
  height : ℚ
deriving DecidableEq

structure Vec2 where
  x : ℚ
  y : ℚ

/-- The `CHECK_BOUNDS_ID` macro: component-wise rectangle equality, used
as the identity of an exclusive-drag session. -/
def checkBoundsId (src dst : Rect) : Prop :=
  src.x = dst.x ∧ src.y = dst.y ∧ src.width = dst.width ∧ src.height = dst.height

instance (src dst : Rect) : Decidable (checkBoundsId src dst) := by
  unfold checkBoundsId
  infer_instance

/-- The process-wide interaction flags read and written by the controls. -/
structure Globals where
  guiState : ℤ
  guiLocked : Bool
  guiControlExclusiveMode : Bool
  guiControlExclusiveRec : Rect

/-- One frame's pointer/button sample, as polled from the host. -/
structure Inputs where
  mousePos : Vec2
  mouseDown : Bool
  mousePressed : Bool
  mouseReleased : Bool
  wheelMove : ℚ

/-- The double clamp
`if (v > max) v = max; else if (v < min) v = min;` used by
`GuiSliderPro` (lines 3145-3146). -/
def cClampElse (v lo hi : ℚ) : ℚ := if v > hi then hi else if v < lo then lo else v

/-- The slider value formula
`(max-min)*((mouse.x - bounds.x - sliderWidth/2)/(bounds.width-sliderWidth)) + min`
(`sliderWidth/2` is C integer division). -/
def sliderValueFromMouse (bounds : Rect) (mouseX minValue maxValue : ℚ)
    (sliderWidth : ℤ) : ℚ :=
  (maxValue - minValue) *
    ((mouseX - bounds.x - ((sliderWidth.tdiv 2 : ℤ) : ℚ)) / (bounds.width - (sliderWidth : ℚ))) +
    minValue

structure SliderOut where
  result : ℤ
  state : ℤ
  value : ℚ
  globals : Globals

/-- Embedding of the update section of `GuiSliderPro` (the rest of the
function only draws).  Returns the result code, the resolved state, the
written-back `*value` and the updated globals. -/
def guiSliderPro (collides : Vec2 → Rect → Bool) (g : Globals) (inp : Inputs)
    (bounds : Rect) (value minValue maxValue : ℚ) (sliderWidth : ℤ)
    (styleBorderWidth stylePadding : ℤ) : SliderOut :=
  let state := g.guiState
  let oldValue := value
  let slider : Rect :=
    ⟨bounds.x, bounds.y + (styleBorderWidth : ℚ) + (stylePadding : ℚ), 0,
      bounds.height - 2 * (styleBorderWidth : ℚ) - 2 * (stylePadding : ℚ)⟩
  let upd : ℤ × ℚ × Globals :=
    if state ≠ STATE_DISABLED ∧ g.guiLocked = false then
      let step : ℤ × ℚ × Globals :=
        if g.guiControlExclusiveMode then
          if inp.mouseDown then
            if checkBoundsId bounds g.guiControlExclusiveRec then
              (STATE_PRESSED,
                sliderValueFromMouse bounds inp.mousePos.x minValue maxValue sliderWidth, g)
            else (state, value, g)
          else
            (state, value,
              { g with guiControlExclusiveMode := false, guiControlExclusiveRec := ⟨0, 0, 0, 0⟩ })
        else if collides inp.mousePos bounds then
          if inp.mouseDown then
            let g2 := { g with guiControlExclusiveMode := true, guiControlExclusiveRec := bounds }
            if collides inp.mousePos slider then (STATE_PRESSED, value, g2)
            else
              (STATE_PRESSED,
                sliderValueFromMouse bounds inp.mousePos.x minValue maxValue sliderWidth, g2)
          else (STATE_FOCUSED, value, g)
        else (state, value, g)
      (step.1, cClampElse step.2.1 minValue maxValue, step.2.2)
    else (state, value, g)
  { result := if oldValue = upd.2.1 then 0 else 1
    state := upd.1
    value := upd.2.1
    globals := upd.2.2 }

structure ButtonOut where
  result : ℤ
  state : ℤ

/-- Embedding of the update section of `GuiButton` (the rest only
draws); the whole update is skipped while `guiControlExclusiveMode`
holds. -/
def guiButton (collides : Vec2 → Rect → Bool) (g : Globals) (inp : Inputs)
    (bounds : Rect) : ButtonOut :=
  let state := g.guiState
  if state ≠ STATE_DISABLED ∧ g.guiLocked = false ∧ g.guiControlExclusiveMode = false then
    if collides inp.mousePos bounds then
      { result := if inp.mouseReleased then 1 else 0
        state := if inp.mouseDown then STATE_PRESSED else STATE_FOCUSED }
    else { result := 0, state := state }
  else { result := 0, state := state }

/-! ## TextShaper: `GetTextWidth` and the `TEXT_WRAP_NONE` draw loop of
`GuiDrawText` (raygui.h lines 8248-8307, 8437-8653)

The active font is an external raylib collaborator; it is modelled as
the per-codepoint metrics the code reads through `GetGlyphIndex` and
`guiFont.glyphs`/`guiFont.recs` (spec section 6: per-codepoint
advance/bitmap metrics from the active font).  The draw model records
the codepoint and x position of every `DrawTextCodepoint` call of a
single-line text (y positioning is independent of the claims below) and
tags the draws issued by the overflow ellipsis loop.  The C loops are
written with an explicit fuel that bounds their iteration count (each
iteration consumes at least one byte, so `size` fuel is enough),
keeping the definitions kernel-computable. -/

/-- Per-codepoint metrics of the active font: `baseSize`, and the
`advanceX`/`recs[].width` values that `GetGlyphIndex` resolves for a
codepoint. -/
structure Font where
  baseSize : ℤ
  advanceX : ℕ → ℤ
  recWidth : ℕ → ℚ

/-- The global text style values read from the style table:
`TEXT_SIZE`, `TEXT_SPACING`, `TEXT_LINE_SPACING`. -/
structure TextStyle where
  textSize : ℤ
  textSpacing : ℤ
  textLineSpacing : ℤ

/-- `scaleFactor = (float)GuiGetStyle(DEFAULT, TEXT_SIZE)/guiFont.baseSize`. -/
def scaleFactor (font : Font) (sty : TextStyle) : ℚ :=
  (sty.textSize : ℚ) / (font.baseSize : ℚ)

/-- Glyph width: `advanceX == 0 ? recs[index].width*scaleFactor
: advanceX*scaleFactor`. -/
def glyphWidth (font : Font) (sty : TextStyle) (cp : ℕ) : ℚ :=
  if font.advanceX cp = 0 then font.recWidth cp * scaleFactor font sty
  else (font.advanceX cp : ℚ) * scaleFactor font sty

/-- Byte count measured by `GetTextWidth`: up to `MAX_LINE_BUFFER_SIZE`
(256) bytes, stopping at NUL or a line break. -/
def measureSize (bytes : List ℕ) : ℕ :=
  ((bytes.take 256).takeWhile (fun b => decide (b ≠ 0 ∧ b ≠ 10))).length

/-- The measuring loop of `GetTextWidth`: sum `glyphWidth + TEXT_SPACING`
per decoded codepoint while `i < size`.  `fuel` bounds the iteration
count; every iteration advances `i` by at least 1, so `size` is enough. -/
def measureLoop (font : Font) (sty : TextStyle) (bytes : List ℕ) (size : ℕ) :
    ℕ → ℕ → ℚ
  | 0, _ => 0
  | fuel + 1, i =>
    if i < size then
      glyphWidth font sty (getCodepointNext bytes i).1 + (sty.textSpacing : ℚ) +
        measureLoop font sty bytes size fuel (i + (getCodepointNext bytes i).2)
    else 0

/-- The icon offset scanned by `GetTextWidth`: the index `i ∈ 1..4` of
the first `#` before a NUL, or 0. -/
def measureIconOffset (bytes : List ℕ) : ℕ :=
  if byteAt bytes 0 = 35 then
    if byteAt bytes 1 = 0 then 0
    else if byteAt bytes 1 = 35 then 1
    else if byteAt bytes 2 = 0 then 0
    else if byteAt bytes 2 = 35 then 2
    else if byteAt bytes 3 = 0 then 0
    else if byteAt bytes 3 = 35 then 3
    else if byteAt bytes 4 = 0 then 0
    else if byteAt bytes 4 = 35 then 4
    else 0
  else 0

/-- Embedding of `GetTextWidth` (assuming a loaded font texture, which is
an external precondition): skip a leading `#...#` icon prefix, sum the
glyph widths of the first `measureSize` bytes, add the icon box width
`RAYGUI_ICON_SIZE + ICON_TEXT_PADDING` when an icon prefix was found,
and truncate the float result to `int`. -/
def getTextWidth (font : Font) (sty : TextStyle) (bytes : List ℕ) : ℤ :=
  if byteAt bytes 0 = 0 then 0
  else
    let off := measureIconOffset bytes
    let rest := bytes.drop off
    let size := measureSize rest
    let w := measureLoop font sty rest size size 0
    ctrunc (if off > 0 then w + (16 + 4 : ℚ) else w)

/-- One `DrawTextCodepoint` call: the codepoint, its x position, and a
specification-side tag marking draws issued by the overflow ellipsis
loop (the tag mirrors which source line issued the call; it does not
alter behaviour). -/
structure Draw where
  codepoint : ℕ
  x : ℚ
  ellipsis : Bool
deriving DecidableEq

/-- The ellipsis loop `for (j = 0; j < ellipsisWidth; j += ellipsisWidth/3)`
with fuel; the C loop does not terminate when `ellipsisWidth/3 == 0 <
ellipsisWidth`, and with `ellipsisWidth.toNat + 1` fuel this model is
exact whenever the step is at least 1. -/
def dotLoop : ℕ → ℤ → ℤ → ℤ → List ℤ
  | 0, _, _, _ => []
  | fuel + 1, j, e, step => if j < e then j :: dotLoop fuel (j + step) e step else []

/-- The j offsets at which the ellipsis dots are drawn. -/
def dotOffsets (e : ℤ) : List ℤ := dotLoop (e.toNat + 1) 0 e (e.tdiv 3)

/-- The per-codepoint draw loop of `GuiDrawText` specialised to
`wrapMode = TEXT_WRAP_NONE` (in that mode the wrap branches are dead and
`wrapMode` is never mutated).  Arguments: threshold data
(bounds, icon width offset, ellipsis width, measured line width, pen
origin), the line bytes and byte size, then fuel, the byte cursor, the
running x offset and the `textOverflow` flag. -/
def drawLine (font : Font) (sty : TextStyle) (bounds : Rect) (woff : ℚ) (e tsx : ℤ)
    (posX : ℚ) (line : List ℕ) (lineSize : ℕ) : ℕ → ℕ → ℚ → Bool → List Draw
  | 0, _, _, _ => []
  | fuel + 1, i, offX, over =>
    if i < lineSize then
      let cp := (getCodepointNext line i).1
      let sz := if cp = 0x3f then 1 else (getCodepointNext line i).2
      let gw := glyphWidth font sty cp
      if cp = 10 then []
      else
        let step : List Draw × Bool :=
          if cp ≠ 32 ∧ cp ≠ 9 then
            if (tsx : ℚ) > bounds.width then
              if offX ≤ bounds.width - gw - woff - (e : ℚ) then
                ([⟨cp, posX + offX, false⟩], over)
              else if over = false then
                ((dotOffsets e).map (fun (j : ℤ) => (⟨46, posX + offX + (j : ℚ), true⟩ : Draw)),
                  true)
              else ([], over)
            else ([⟨cp, posX + offX, false⟩], over)
          else ([], over)
        step.1 ++ drawLine font sty bounds woff e tsx posX line lineSize fuel (i + sz)
          (offX + gw + (sty.textSpacing : ℚ)) step.2
    else []

/-- Embedding of `GuiDrawText` for a single-line text (no `\n` bytes) in
`TEXT_WRAP_NONE` mode: icon-marker processing, width measurement,
horizontal alignment with the forced-LEFT override for oversized text,
the pixel-perfect `(int)` snap of the pen origin, the icon pen advance,
and the per-codepoint draw loop.  The `GuiDrawIcon` bitmap blit is not a
glyph draw and is not recorded. -/
def guiDrawTextNone (font : Font) (sty : TextStyle) (iconScale : ℤ) (bounds : Rect)
    (alignment : ℤ) (bytes : List ℕ) : List Draw :=
  if byteAt bytes 0 = 0 then []
  else
    let icon := getTextIcon bytes
    let line := bytes.drop icon.2
    let tsx0 := getTextWidth font sty line
    let tsx :=
      if 0 ≤ icon.1 then
        tsx0 + 16 * iconScale + (if byteAt line 0 ≠ 0 then (4 : ℤ) else 0)
      else tsx0
    let posX0 : ℚ :=
      if alignment = 0 then bounds.x
      else if alignment = 1 then
        bounds.x + bounds.width / 2 - ((Int.tdiv tsx 2 : ℤ) : ℚ)
      else if alignment = 2 then bounds.x + bounds.width - (tsx : ℚ)
      else bounds.x
    let posX1 := if (tsx : ℚ) > bounds.width ∧ byteAt line 0 ≠ 0 then bounds.x else posX0
    let posX2 : ℚ := ((ctrunc posX1 : ℤ) : ℚ)
    let posX3 := if 0 ≤ icon.1 then posX2 + ((16 * iconScale + 4 : ℤ) : ℚ) else posX2
    let woff : ℚ := if 0 ≤ icon.1 then ((16 * iconScale + 4 : ℤ) : ℚ) else 0
    let lineSize := (line.takeWhile (fun b => decide (b ≠ 0 ∧ b ≠ 10 ∧ b ≠ 13))).length
    let e := getTextWidth font sty [46, 46, 46]
    drawLine font sty bounds woff e tsx posX3 line lineSize lineSize 0 0 false

/-- A font whose every glyph has the same integer advance, as used to
instantiate the layout theorems on concrete inputs. -/
def uniformFont (a : ℤ) : Font := ⟨10, fun _ => a, fun _ => 0⟩

/-- The text style installed by `GuiLoadStyleDefault`: TEXT_SIZE 10,
TEXT_SPACING 1, TEXT_LINE_SPACING 15. -/
def defaultTextStyle : TextStyle := ⟨10, 1, 15⟩

/-! ## ColorSpace: `ConvertRGBtoHSV` / `ConvertHSVtoRGB`
(raygui.h lines 8758-8878)

The float computations are modelled by exact rational arithmetic: the
float literal `0.00001f` becomes `1/100000` and the `(long)` truncation
of the sector index becomes `ctrunc`. -/

structure Vec3 where
  x : ℚ
  y : ℚ
  z : ℚ
deriving DecidableEq

/-- The two-step minimum `min = (x < y) ? x : y; min = (min < z) ? min : z`. -/
def vmin3 (rgb : Vec3) : ℚ :=
  if (if rgb.x < rgb.y then rgb.x else rgb.y) < rgb.z then
    (if rgb.x < rgb.y then rgb.x else rgb.y)
  else rgb.z

/-- The two-step maximum `max = (x > y) ? x : y; max = (max > z) ? max : z`. -/
def vmax3 (rgb : Vec3) : ℚ :=
  if (if rgb.x > rgb.y then rgb.x else rgb.y) > rgb.z then
    (if rgb.x > rgb.y then rgb.x else rgb.y)
  else rgb.z

/-- The sector-relative hue of `ConvertRGBtoHSV` before the `*60` scale:
`(g-b)/delta`, `2+(b-r)/delta` or `4+(r-g)/delta` depending on which
channel attains the maximum. -/
def rgbToHsvHue0 (rgb : Vec3) : ℚ :=
  if rgb.x ≥ vmax3 rgb then (rgb.y - rgb.z) / (vmax3 rgb - vmin3 rgb)
  else if rgb.y ≥ vmax3 rgb then 2 + (rgb.z - rgb.x) / (vmax3 rgb - vmin3 rgb)
  else 4 + (rgb.x - rgb.y) / (vmax3 rgb - vmin3 rgb)

/-- Embedding of `ConvertRGBtoHSV`: value = max channel; `delta < 1e-5`
(achromatic) forces hue = saturation = 0; otherwise saturation is
`delta/max` and the sector hue is scaled to degrees and wrapped into
`[0, 360)` by adding 360 when negative. -/
def convertRGBtoHSV (rgb : Vec3) : Vec3 :=
  if vmax3 rgb - vmin3 rgb < 1 / 100000 then ⟨0, 0, vmax3 rgb⟩
  else if vmax3 rgb > 0 then
    ⟨if rgbToHsvHue0 rgb * 60 < 0 then rgbToHsvHue0 rgb * 60 + 360 else rgbToHsvHue0 rgb * 60,
      (vmax3 rgb - vmin3 rgb) / vmax3 rgb, vmax3 rgb⟩
  else ⟨0, 0, vmax3 rgb⟩

/-- The `(long)hh` sector index of `ConvertHSVtoRGB` (after the
`hh >= 360 ⇒ hh = 0` reset and the division by 60). -/
def hsvSectorIndex (hsv : Vec3) : ℤ :=
  ctrunc ((if hsv.x ≥ 360 then 0 else hsv.x) / 60)

/-- The in-sector fraction `ff = hh - i` of `ConvertHSVtoRGB`. -/
def hsvFF (hsv : Vec3) : ℚ :=
  (if hsv.x ≥ 360 then 0 else hsv.x) / 60 - (hsvSectorIndex hsv : ℚ)

/-- Embedding of `ConvertHSVtoRGB`: non-positive saturation
short-circuits to gray, otherwise the p/q/t sector formula is applied;
the `switch` default (any index other than 0..4) behaves like case 5. -/
def convertHSVtoRGB (hsv : Vec3) : Vec3 :=
  if hsv.y ≤ 0 then ⟨hsv.z, hsv.z, hsv.z⟩
  else
    let p := hsv.z * (1 - hsv.y)
    let q := hsv.z * (1 - hsv.y * hsvFF hsv)
    let t := hsv.z * (1 - hsv.y * (1 - hsvFF hsv))
    if hsvSectorIndex hsv = 0 then ⟨hsv.z, t, p⟩
    else if hsvSectorIndex hsv = 1 then ⟨q, hsv.z, p⟩
    else if hsvSectorIndex hsv = 2 then ⟨p, hsv.z, t⟩
    else if hsvSectorIndex hsv = 3 then ⟨p, q, hsv.z⟩
    else if hsvSectorIndex hsv = 4 then ⟨t, p, hsv.z⟩
    else ⟨hsv.z, p, q⟩

/-! ## ScrollCalculator: `GuiScrollBar` (raygui.h lines 8881-9049) and
the scroll computation of `GuiScrollPanel` (lines 1802-1957)

Style values are snapshots of the style-table entries the code reads;
floats are exact rationals and every C `(int)` cast is `ctrunc`. -/

/-- The SCROLLBAR style properties read by `GuiScrollBar`. -/
structure ScrollBarStyle where
  borderWidth : ℤ
  scrollPadding : ℤ
  scrollSliderPadding : ℤ
  scrollSliderSize : ℤ
  scrollSpeed : ℤ
  arrowsVisible : ℤ

/-- Scrollbar orientation:
`isVertical = (bounds.width > bounds.height)? false : true` (line 8886). -/
def barIsVertical (bounds : Rect) : Bool :=
  if bounds.width > bounds.height then false else true

/-- Spinner-button size (lines 8889-8891). -/
def barSpinnerSize (st : ScrollBarStyle) (bounds : Rect) : ℤ :=
  if st.arrowsVisible ≠ 0 then
    (if barIsVertical bounds = true then ctrunc bounds.width - 2 * st.borderWidth
     else ctrunc bounds.height - 2 * st.borderWidth)
  else 0

/-- The `arrowUpLeft` rectangle (lines 8914-8917). -/
def barArrowUpLeft (st : ScrollBarStyle) (bounds : Rect) : Rect :=
  ⟨bounds.x + (st.borderWidth : ℚ), bounds.y + (st.borderWidth : ℚ),
   (barSpinnerSize st bounds : ℚ), (barSpinnerSize st bounds : ℚ)⟩

/-- The `arrowDownRight` rectangle (line 8921 / line 8934). -/
def barArrowDownRight (st : ScrollBarStyle) (bounds : Rect) : Rect :=
  if barIsVertical bounds = true then
    ⟨bounds.x + (st.borderWidth : ℚ),
     bounds.y + bounds.height - (barSpinnerSize st bounds : ℚ) - (st.borderWidth : ℚ),
     (barSpinnerSize st bounds : ℚ), (barSpinnerSize st bounds : ℚ)⟩
  else
    ⟨bounds.x + bounds.width - (barSpinnerSize st bounds : ℚ) - (st.borderWidth : ℚ),
     bounds.y + (st.borderWidth : ℚ),
     (barSpinnerSize st bounds : ℚ), (barSpinnerSize st bounds : ℚ)⟩

/-- The scrollbar track rectangle (line 8922 / line 8935). -/
def barScrollbarRect (st : ScrollBarStyle) (bounds : Rect) : Rect :=
  if barIsVertical bounds = true then
    ⟨bounds.x + (st.borderWidth : ℚ) + (st.scrollPadding : ℚ),
     (barArrowUpLeft st bounds).y + (barArrowUpLeft st bounds).height,
     bounds.width - 2 * ((st.borderWidth : ℚ) + (st.scrollPadding : ℚ)),
     bounds.height - (barArrowUpLeft st bounds).height -
       (barArrowDownRight st bounds).height - 2 * (st.borderWidth : ℚ)⟩
  else
    ⟨(barArrowUpLeft st bounds).x + (barArrowUpLeft st bounds).width,
     bounds.y + (st.borderWidth : ℚ) + (st.scrollPadding : ℚ),
     bounds.width - (barArrowUpLeft st bounds).width -
       (barArrowDownRight st bounds).width - 2 * (st.borderWidth : ℚ),
     bounds.height - 2 * ((st.borderWidth : ℚ) + (st.scrollPadding : ℚ))⟩

/-- Track length along the scrolling axis: `scrollbar.height` for a
vertical bar, `scrollbar.width` for a horizontal one. -/
def barTrackLen (st : ScrollBarStyle) (bounds : Rect) : ℚ :=
  if barIsVertical bounds = true then (barScrollbarRect st bounds).height
  else (barScrollbarRect st bounds).width

/-- `sliderSize` after the floor `if (sliderSize < 1) sliderSize = 1`
(lines 8910-8911). -/
def barSliderSize1 (st : ScrollBarStyle) : ℤ :=
  if st.scrollSliderSize < 1 then 1 else st.scrollSliderSize

/-- The drawn thumb length: the floored style size, overridden to
`(int)track - 2` when it would not fit the track
(line 8925 / line 8938). -/
def barSliderLen (st : ScrollBarStyle) (bounds : Rect) : ℤ :=
  if (barSliderSize1 st : ℚ) ≥ barTrackLen st bounds then
    ctrunc (barTrackLen st bounds) - 2
  else barSliderSize1 st

/-- The two successive clamping statements
`if (value > maxValue) value = maxValue; if (value < minValue) value = minValue;`
(lines 8904-8905 and 9015-9016). -/
def cClampSeq (v lo hi : ℤ) : ℤ :=
  if (if v > hi then hi else v) < lo then lo else (if v > hi then hi else v)

/-- The slider (thumb) rectangle (lines 8926-8930 / 8939-8943), from
the entry-clamped value. -/
def barSliderRect (st : ScrollBarStyle) (bounds : Rect)
    (value minValue valueRange : ℤ) : Rect :=
  if barIsVertical bounds = true then
    ⟨bounds.x + (st.borderWidth : ℚ) + (st.scrollSliderPadding : ℚ),
     (barScrollbarRect st bounds).y +
       ((ctrunc (((value - minValue : ℤ) : ℚ) / (valueRange : ℚ) *
         ((barScrollbarRect st bounds).height - (barSliderLen st bounds : ℚ))) : ℤ) : ℚ),
     bounds.width - 2 * ((st.borderWidth : ℚ) + (st.scrollSliderPadding : ℚ)),
     (barSliderLen st bounds : ℚ)⟩
  else
    ⟨(barScrollbarRect st bounds).x +
       ((ctrunc (((value - minValue : ℤ) : ℚ) / (valueRange : ℚ) *
         ((barScrollbarRect st bounds).width - (barSliderLen st bounds : ℚ))) : ℤ) : ℚ),
     bounds.y + (st.borderWidth : ℚ) + (st.scrollSliderPadding : ℚ),
     (barSliderLen st bounds : ℚ),
     bounds.height - 2 * ((st.borderWidth : ℚ) + (st.scrollSliderPadding : ℚ))⟩

/-- Value recomputed from the pointer position along the track
(lines 8962-8963 and 8992-8993). -/
def barDragValue (st : ScrollBarStyle) (bounds : Rect) (mouse : Vec2)
    (value minValue valueRange : ℤ) : ℤ :=
  if barIsVertical bounds = true then
    ctrunc ((mouse.y - (barScrollbarRect st bounds).y -
        (barSliderRect st bounds value minValue valueRange).height / 2) * (valueRange : ℚ) /
        ((barScrollbarRect st bounds).height -
          (barSliderRect st bounds value minValue valueRange).height) + (minValue : ℚ))
  else
    ctrunc ((mouse.x - (barScrollbarRect st bounds).x -
        (barSliderRect st bounds value minValue valueRange).width / 2) * (valueRange : ℚ) /
        ((barScrollbarRect st bounds).width -
          (barSliderRect st bounds value minValue valueRange).width) + (minValue : ℚ))

structure ScrollBarOut where
  value : ℤ
  scrollbar : Rect
  slider : Rect
  globals : Globals

/-- Embedding of `GuiScrollBar` (lines 8881-9049): entry clamp,
geometry, the update section (exclusive drag, hover wheel, press on an
arrow, the track or the slider) and the final clamp inside the enabled
guard; the output carries the returned value, the drawn rectangles and
the updated globals. -/
def guiScrollBar (st : ScrollBarStyle) (collides : Vec2 → Rect → Bool) (g : Globals)
    (inp : Inputs) (bounds : Rect) (value minValue maxValue : ℤ) : ScrollBarOut :=
  let v0 := cClampSeq value minValue maxValue
  let valueRange := if maxValue - minValue ≤ 0 then 1 else maxValue - minValue
  let scrollbar := barScrollbarRect st bounds
  let slider := barSliderRect st bounds v0 minValue valueRange
  if g.guiState ≠ STATE_DISABLED ∧ g.guiLocked = false then
    if g.guiControlExclusiveMode = true then
      if inp.mouseDown = true ∧ collides inp.mousePos (barArrowUpLeft st bounds) = false ∧
          collides inp.mousePos (barArrowDownRight st bounds) = false then
        if checkBoundsId bounds g.guiControlExclusiveRec then
          ⟨cClampSeq (barDragValue st bounds inp.mousePos v0 minValue valueRange)
            minValue maxValue, scrollbar, slider, g⟩
        else ⟨cClampSeq v0 minValue maxValue, scrollbar, slider, g⟩
      else
        ⟨cClampSeq v0 minValue maxValue, scrollbar, slider,
         { g with guiControlExclusiveMode := false, guiControlExclusiveRec := ⟨0, 0, 0, 0⟩ }⟩
    else if collides inp.mousePos bounds = true then
      let v1 := if ctrunc inp.wheelMove ≠ 0 then v0 + ctrunc inp.wheelMove else v0
      if inp.mousePressed = true then
        let v2 :=
          if collides inp.mousePos (barArrowUpLeft st bounds) = true then
            v1 - valueRange.tdiv st.scrollSpeed
          else if collides inp.mousePos (barArrowDownRight st bounds) = true then
            v1 + valueRange.tdiv st.scrollSpeed
          else if collides inp.mousePos slider = false then
            barDragValue st bounds inp.mousePos v0 minValue valueRange
          else v1
        ⟨cClampSeq v2 minValue maxValue, scrollbar, slider,
         { g with guiControlExclusiveMode := true, guiControlExclusiveRec := bounds }⟩
      else ⟨cClampSeq v1 minValue maxValue, scrollbar, slider, g⟩
    else ⟨cClampSeq v0 minValue maxValue, scrollbar, slider, g⟩
  else ⟨v0, scrollbar, slider, g⟩

/-- The style-table entries read by the scroll computation of
`GuiScrollPanel`: `DEFAULT BORDER_WIDTH`, `LISTVIEW SCROLLBAR_WIDTH`
and `LISTVIEW SCROLLBAR_SIDE`. -/
structure PanelStyle where
  borderWidthD : ℤ
  scrollbarWidth : ℤ
  scrollbarSide : ℤ

def SCROLLBAR_LEFT_SIDE : ℤ := 0

/-- Panel bounds after the minimum-height enforcement (line 1819) and
the header-bar adjustment for non-NULL text (lines 1821-1826);
`RAYGUI_WINDOWBOX_STATUSBAR_HEIGHT` is 24. -/
def panelBounds (bounds : Rect) (hasText : Bool) : Rect :=
  let b1 := if bounds.height < 24 * 2 then { bounds with height := 24 * 2 } else bounds
  if hasText = true then { b1 with y := b1.y + (24 - 1), height := b1.height - (24 + 1) }
  else b1

/-- `hasHorizontalScrollBar` after the visibility recheck
(lines 1828, 1832). -/
def panelHasHSB (ps : PanelStyle) (pb content : Rect) : Bool :=
  let h0 := decide (content.width > pb.width - 2 * (ps.borderWidthD : ℚ))
  let v0 := decide (content.height > pb.height - 2 * (ps.borderWidthD : ℚ))
  if h0 = false then
    v0 && decide (content.width >
      pb.width - 2 * (ps.borderWidthD : ℚ) - (ps.scrollbarWidth : ℚ))
  else h0

/-- `hasVerticalScrollBar` after the visibility recheck
(lines 1829, 1833). -/
def panelHasVSB (ps : PanelStyle) (pb content : Rect) : Bool :=
  let v0 := decide (content.height > pb.height - 2 * (ps.borderWidthD : ℚ))
  if v0 = false then
    panelHasHSB ps pb content && decide (content.height >
      pb.height - 2 * (ps.borderWidthD : ℚ) - (ps.scrollbarWidth : ℚ))
  else v0

/-- `horizontalScrollBarWidth` (line 1835). -/
def panelHsbw (ps : PanelStyle) (pb content : Rect) : ℤ :=
  if panelHasHSB ps pb content = true then ps.scrollbarWidth else 0

/-- `verticalScrollBarWidth` (line 1836). -/
def panelVsbw (ps : PanelStyle) (pb content : Rect) : ℤ :=
  if panelHasVSB ps pb content = true then ps.scrollbarWidth else 0

/-- The `horizontalScrollBar` rectangle (lines 1837-1842), with the
40-pixel minimum-width enforcement (line 1851). -/
def panelHorizontalBar (ps : PanelStyle) (pb content : Rect) : Rect :=
  let r : Rect :=
    ⟨(if ps.scrollbarSide = SCROLLBAR_LEFT_SIDE then
        pb.x + (panelVsbw ps pb content : ℚ) else pb.x) + (ps.borderWidthD : ℚ),
     pb.y + pb.height - (panelHsbw ps pb content : ℚ) - (ps.borderWidthD : ℚ),
     pb.width - (panelVsbw ps pb content : ℚ) - 2 * (ps.borderWidthD : ℚ),
     (panelHsbw ps pb content : ℚ)⟩
  if r.width < 40 then { r with width := 40 } else r

/-- The `verticalScrollBar` rectangle (lines 1843-1848), with the
40-pixel minimum-height enforcement (line 1852). -/
def panelVerticalBar (ps : PanelStyle) (pb content : Rect) : Rect :=
  let r : Rect :=
    ⟨(if ps.scrollbarSide = SCROLLBAR_LEFT_SIDE then pb.x + (ps.borderWidthD : ℚ)
      else pb.x + pb.width - (panelVsbw ps pb content : ℚ) - (ps.borderWidthD : ℚ)),
     pb.y + (ps.borderWidthD : ℚ),
     (panelVsbw ps pb content : ℚ),
     pb.height - (panelHsbw ps pb content : ℚ) - 2 * (ps.borderWidthD : ℚ)⟩
  if r.height < 40 then { r with height := 40 } else r

/-- `horizontalMin` (line 1863; both arms of the outer conditional on
`hasHorizontalScrollBar` are the same expression, and the float cast
of the side value does not change the comparison). -/
def panelHMin (ps : PanelStyle) (pb content : Rect) : ℚ :=
  (if ps.scrollbarSide = SCROLLBAR_LEFT_SIDE then -(panelVsbw ps pb content : ℚ) else 0) -
    (ps.borderWidthD : ℚ)

/-- `horizontalMax` (line 1864). -/
def panelHMax (ps : PanelStyle) (pb content : Rect) : ℚ :=
  if panelHasHSB ps pb content = true then
    content.width - pb.width + (panelVsbw ps pb content : ℚ) + (ps.borderWidthD : ℚ) -
      (if ps.scrollbarSide = SCROLLBAR_LEFT_SIDE then (panelVsbw ps pb content : ℚ) else 0)
  else -(ps.borderWidthD : ℚ)

/-- `verticalMin` (line 1865). -/
def panelVMin (ps : PanelStyle) (pb content : Rect) : ℚ :=
  if panelHasVSB ps pb content = true then 0 else -1

/-- `verticalMax` (line 1866). -/
def panelVMax (ps : PanelStyle) (pb content : Rect) : ℚ :=
  if panelHasVSB ps pb content = true then
    content.height - pb.height + (panelHsbw ps pb content : ℚ) + (ps.borderWidthD : ℚ)
  else -(ps.borderWidthD : ℚ)

/-- The wheel-scroll update phase of `GuiScrollPanel` (lines 1870-1904;
the keyboard branch is compiled out): `ctrlShift` stands for
`IsKeyDown(KEY_LEFT_CONTROL) || IsKeyDown(KEY_LEFT_SHIFT)`. -/
def panelWheel (collides : Vec2 → Rect → Bool) (g : Globals) (inp : Inputs)
    (ctrlShift : Bool) (pb content : Rect) (hasH : Bool) (s : Vec2) : Vec2 :=
  if g.guiState ≠ STATE_DISABLED ∧ g.guiLocked = false then
    if collides inp.mousePos pb = true then
      let sx := if content.width / pb.width < 20 then 20 else content.width / pb.width
      let sy := if content.height / pb.height < 20 then 20 else content.height / pb.height
      if hasH = true ∧ ctrlShift = true then ⟨s.x + inp.wheelMove * sx, s.y⟩
      else ⟨s.x, s.y + inp.wheelMove * sy⟩
    else s
  else s

/-- The normalization of the scroll offsets (lines 1907-1910): four
independent clamping statements, in source order. -/
def panelNormalize (hMin hMax vMin vMax : ℚ) (s : Vec2) : Vec2 :=
  ⟨if (if s.x > -hMin then -hMin else s.x) < -hMax then -hMax
    else (if s.x > -hMin then -hMin else s.x),
   if (if s.y > -vMin then -vMin else s.y) < -vMax then -vMax
    else (if s.y > -vMin then -vMin else s.y)⟩

/-- The temporary `SCROLL_SLIDER_SIZE` override installed before the
horizontal bar call (line 1926). -/
def panelHSliderOverride (ps : PanelStyle) (pb content : Rect) : ℤ :=
  ctrunc ((pb.width - 2 * (ps.borderWidthD : ℚ) - (panelVsbw ps pb content : ℚ)) /
    ((ctrunc content.width : ℤ) : ℚ) *
    ((ctrunc pb.width - 2 * ps.borderWidthD - panelVsbw ps pb content : ℤ) : ℚ))

/-- The temporary `SCROLL_SLIDER_SIZE` override installed before the
vertical bar call (line 1935). -/
def panelVSliderOverride (ps : PanelStyle) (pb content : Rect) : ℤ :=
  ctrunc ((pb.height - 2 * (ps.borderWidthD : ℚ) - (panelHsbw ps pb content : ℚ)) /
    ((ctrunc content.height : ℤ) : ℚ) *
    ((ctrunc pb.height - 2 * ps.borderWidthD - panelHsbw ps pb content : ℤ) : ℚ))

/-- The horizontal `GuiScrollBar` call made by `GuiScrollPanel`
(line 1927), with the wheel phase and normalization applied to the
incoming scroll first. -/
def panelHBarOut (ps : PanelStyle) (st : ScrollBarStyle)
    (collides : Vec2 → Rect → Bool) (g : Globals) (inp : Inputs) (ctrlShift : Bool)
    (bounds content : Rect) (hasText : Bool) (scroll : Vec2) : ScrollBarOut :=
  let pb := panelBounds bounds hasText
  let s2 := panelNormalize (panelHMin ps pb content) (panelHMax ps pb content)
    (panelVMin ps pb content) (panelVMax ps pb content)
    (panelWheel collides g inp ctrlShift pb content (panelHasHSB ps pb content) scroll)
  guiScrollBar { st with scrollSliderSize := panelHSliderOverride ps pb content }
    collides g inp (panelHorizontalBar ps pb content)
    (ctrunc (-s2.x)) (ctrunc (panelHMin ps pb content)) (ctrunc (panelHMax ps pb content))

/-- The vertical `GuiScrollBar` call made by `GuiScrollPanel`
(line 1936); it sees the globals left by the horizontal call when that
one ran. -/
def panelVBarOut (ps : PanelStyle) (st : ScrollBarStyle)
    (collides : Vec2 → Rect → Bool) (g : Globals) (inp : Inputs) (ctrlShift : Bool)
    (bounds content : Rect) (hasText : Bool) (scroll : Vec2) : ScrollBarOut :=
  let pb := panelBounds bounds hasText
  let s2 := panelNormalize (panelHMin ps pb content) (panelHMax ps pb content)
    (panelVMin ps pb content) (panelVMax ps pb content)
    (panelWheel collides g inp ctrlShift pb content (panelHasHSB ps pb content) scroll)
  let g1 := if panelHasHSB ps pb content = true then
    (panelHBarOut ps st collides g inp ctrlShift bounds content hasText scroll).globals
    else g
  guiScrollBar { st with scrollSliderSize := panelVSliderOverride ps pb content }
    collides g1 inp (panelVerticalBar ps pb content)
    (ctrunc (-s2.y)) (ctrunc (panelVMin ps pb content)) (ctrunc (panelVMax ps pb content))

/-- Embedding of the scroll computation of `GuiScrollPanel`
(lines 1802-1954): the written-back `*scroll` stores the negated bar
result per visible axis and 0 for a hidden axis (lines 1927-1938),
together with the updated globals. -/
def guiScrollPanelScroll (ps : PanelStyle) (st : ScrollBarStyle)
    (collides : Vec2 → Rect → Bool) (g : Globals) (inp : Inputs) (ctrlShift : Bool)
    (bounds content : Rect) (hasText : Bool) (scroll : Vec2) : Vec2 × Globals :=
  let hasH := panelHasHSB ps (panelBounds bounds hasText) content
  let hasV := panelHasVSB ps (panelBounds bounds hasText) content
  ⟨⟨if hasH = true then
      -((panelHBarOut ps st collides g inp ctrlShift bounds content hasText scroll).value : ℚ)
    else 0,
    if hasV = true then
      -((panelVBarOut ps st collides g inp ctrlShift bounds content hasText scroll).value : ℚ)
    else 0⟩,
   if hasV = true then
     (panelVBarOut ps st collides g inp ctrlShift bounds content hasText scroll).globals
   else if hasH = true then
     (panelHBarOut ps st collides g inp ctrlShift bounds content hasText scroll).globals
   else g⟩

/-- The returned scrollbar value lies between `minValue` and
`max minValue maxValue`. -/
def barValueClamped (st : ScrollBarStyle) (collides : Vec2 → Rect → Bool)
    (g : Globals) (inp : Inputs) (bounds : Rect) (value minValue maxValue : ℤ) : Prop :=
  minValue ≤ (guiScrollBar st collides g inp bounds value minValue maxValue).value ∧
  (guiScrollBar st collides g inp bounds value minValue maxValue).value ≤
    max minValue maxValue

/-- Per-axis clamping of the scroll offset stored by the panel: a
hidden axis stores 0; a visible axis stores the negated bar value,
bounded below and above by the axis limits, and in magnitude by
content minus viewport; the vertical offset is never positive. -/
def panelScrollClamped (ps : PanelStyle) (st : ScrollBarStyle)
    (collides : Vec2 → Rect → Bool) (g : Globals) (inp : Inputs) (ctrlShift : Bool)
    (bounds content : Rect) (hasText : Bool) (scroll : Vec2) : Prop :=
  let pb := panelBounds bounds hasText
  let out := (guiScrollPanelScroll ps st collides g inp ctrlShift bounds
    content hasText scroll).1
  (panelHasHSB ps pb content = false → out.x = 0) ∧
  (panelHasHSB ps pb content = true →
    -((max (ctrunc (panelHMin ps pb content)) (ctrunc (panelHMax ps pb content)) : ℤ) : ℚ) ≤
        out.x ∧
    out.x ≤ -((ctrunc (panelHMin ps pb content) : ℤ) : ℚ) ∧
    -out.x ≤ content.width -
      (pb.width - 2 * (ps.borderWidthD : ℚ) - (panelVsbw ps pb content : ℚ))) ∧
  (panelHasVSB ps pb content = false → out.y = 0) ∧
  (panelHasVSB ps pb content = true →
    out.y ≤ 0 ∧
    -out.y ≤ content.height -
      (pb.height - 2 * (ps.borderWidthD : ℚ) - (panelHsbw ps pb content : ℚ)))

/-- Thumb length between the 1-pixel minimum floor and the track
length. -/
def thumbWithinTrack (st : ScrollBarStyle) (bounds : Rect) : Prop :=
  1 ≤ barSliderLen st bounds ∧ (barSliderLen st bounds : ℚ) ≤ barTrackLen st bounds

/-! ## Arithmetic lemmas about the C cast model -/

theorem ctrunc_intCast (n : ℤ) : ctrunc (n : ℚ) = n := by
  unfold ctrunc
  split <;> simp

theorem ctrunc_eq_floor_of_nonneg {q : ℚ} (h : 0 ≤ q) : ctrunc q = ⌊q⌋ := by
  unfold ctrunc
  rw [if_neg (by linarith)]

theorem ctrunc_le_self_of_nonneg {q : ℚ} (h : 0 ≤ q) : (ctrunc q : ℚ) ≤ q := by
  rw [ctrunc_eq_floor_of_nonneg h]
  exact Int.floor_le q

theorem ctrunc_nonneg {q : ℚ} (h : 0 ≤ q) : 0 ≤ ctrunc q := by
  rw [ctrunc_eq_floor_of_nonneg h]
  exact Int.floor_nonneg.mpr h

theorem ctrunc_mono : Monotone ctrunc := by
  intro a b hab
  unfold ctrunc
  split <;> split
  · exact Int.ceil_le_ceil hab
  · refine le_trans (Int.ceil_le.mpr ?_) (Int.floor_nonneg.mpr (by linarith))
    push_cast
    linarith
  · exact absurd (lt_of_le_of_lt hab (by assumption)) (by simp_all)
  · exact Int.floor_le_floor hab

theorem ctrunc_of_Ico {q : ℚ} {n : ℤ} (h1 : (n : ℚ) ≤ q) (h2 : q < n + 1) (hn : 0 ≤ n) :
    ctrunc q = n := by
  rw [ctrunc_eq_floor_of_nonneg (le_trans (by exact_mod_cast hn) h1)]
  exact Int.floor_eq_iff.mpr ⟨h1, h2⟩

/-! ## StyleTable lemmas and the claim C1 theorem -/

theorem ofUInt32_toUInt32 {v : ℤ} (h1 : -2147483648 ≤ v) (h2 : v < 2147483648) :
    ofUInt32 (toUInt32 v) = v := by
  unfold ofUInt32 toUInt32
  split_ifs <;> omega

theorem styleIndex_inj {c p c2 p2 : ℕ} (hp : p < 24) (hp2 : p2 < 24)
    (h : styleIndex c p = styleIndex c2 p2) : c = c2 ∧ p = p2 := by
  unfold styleIndex RAYGUI_MAX_PROPS_BASE RAYGUI_MAX_PROPS_EXTENDED at h
  omega

theorem foldl_writeSlot_get (l : List ℕ) (p w : ℕ) (g : ℕ → ℕ) (j : ℕ) :
    (l.foldl (fun g i => writeSlot g (styleIndex i p) w) g) j =
      if j ∈ l.map (styleIndex · p) then w else g j := by
  induction l generalizing g with
  | nil => simp
  | cons a l ih =>
      rw [List.foldl_cons, ih]
      by_cases hj : j ∈ l.map (styleIndex · p)
      · simp [hj]
      · by_cases ha : j = styleIndex a p <;> simp [hj, ha, writeSlot]

theorem setStyleLoaded_loaded (s : StyleState) (c p : ℕ) (v : ℤ) :
    (setStyleLoaded s c p v).loaded = s.loaded := rfl

theorem setStyleLoaded_get_propagated (s : StyleState) {c p : ℕ} (hc0 : c ≠ 0)
    (hc : c < RAYGUI_MAX_CONTROLS) (hp : p < RAYGUI_MAX_PROPS_BASE) (v : ℤ) :
    (setStyleLoaded s 0 p v).style (styleIndex c p) = toUInt32 v := by
  unfold setStyleLoaded
  dsimp only
  split_ifs with h
  · rw [foldl_writeSlot_get]
    have hmem : styleIndex c p ∈
        (List.range' 1 (RAYGUI_MAX_CONTROLS - 1)).map (styleIndex · p) := by
      refine List.mem_map.mpr ⟨c, ?_, rfl⟩
      rw [List.mem_range']
      unfold RAYGUI_MAX_CONTROLS at hc ⊢
      exact ⟨c - 1, by omega, by omega⟩
    rw [if_pos hmem]
  · exact absurd ⟨rfl, hp⟩ h

theorem setStyleLoaded_get_self (s : StyleState) {c : ℕ} (hc0 : c ≠ 0) (p : ℕ) (v : ℤ) :
    (setStyleLoaded s c p v).style (styleIndex c p) = toUInt32 v := by
  unfold setStyleLoaded
  dsimp only
  split_ifs with h
  · exact absurd h.1 hc0
  · simp [writeSlot]

theorem setStyleLoaded_get_untouched (s : StyleState) {c p : ℕ} (hp : p < 24)
    (o : SetOp) (hv : validOp o) (ht : ¬touches o c p) (v : ℤ) :
    (setStyleLoaded s o.control o.property v).style (styleIndex c p) =
      s.style (styleIndex c p) := by
  have hop : o.property < 24 := by
    have := hv.2
    unfold RAYGUI_MAX_PROPS_BASE RAYGUI_MAX_PROPS_EXTENDED at this
    omega
  unfold setStyleLoaded
  dsimp only
  split_ifs with hprop
  · rw [foldl_writeSlot_get]
    have hnmem : styleIndex c p ∉
        (List.range' 1 (RAYGUI_MAX_CONTROLS - 1)).map (styleIndex · o.property) := by
      intro hmem
      obtain ⟨i, _, hi⟩ := List.mem_map.mp hmem
      have := styleIndex_inj hop hp hi
      exact ht (Or.inr ⟨hprop.1, this.2⟩)
    rw [if_neg hnmem]
    unfold writeSlot
    rw [if_neg]
    intro h
    have := styleIndex_inj hp hop h
    exact ht (Or.inl ⟨this.1.symm, this.2.symm⟩)
  · unfold writeSlot
    rw [if_neg]
    intro h
    have := styleIndex_inj hp hop h
    exact ht (Or.inl ⟨this.1.symm, this.2.symm⟩)

theorem foldl_setStyle_loaded (l : List (ℕ × ℕ × ℤ)) (t : StyleState) :
    (l.foldl (fun t o => setStyleLoaded t o.1 o.2.1 o.2.2) t).loaded = t.loaded := by
  induction l generalizing t with
  | nil => rfl
  | cons a l ih => rw [List.foldl_cons, ih, setStyleLoaded_loaded]

theorem guiLoadStyleDefault_loaded (s : StyleState) :
    (guiLoadStyleDefault s).loaded = true := by
  unfold guiLoadStyleDefault
  rw [foldl_setStyle_loaded]

theorem guiSetStyle_loaded (s : StyleState) (c p : ℕ) (v : ℤ) :
    (guiSetStyle s c p v).loaded = true := by
  unfold guiSetStyle
  rw [setStyleLoaded_loaded]
  by_cases h : s.loaded <;> simp [h, guiLoadStyleDefault_loaded]

theorem applySets_untouched {c p : ℕ} (hp : p < 24) (ops : List SetOp)
    (h : ∀ o ∈ ops, validOp o ∧ ¬touches o c p) (s : StyleState) (hl : s.loaded = true) :
    (applySets s ops).loaded = true ∧
      (applySets s ops).style (styleIndex c p) = s.style (styleIndex c p) := by
  induction ops generalizing s with
  | nil => exact ⟨hl, rfl⟩
  | cons o ops ih =>
      have ho := h o (by simp)
      have hstep : (guiSetStyle s o.control o.property o.value).style (styleIndex c p) =
          s.style (styleIndex c p) := by
        unfold guiSetStyle
        rw [if_pos hl, setStyleLoaded_get_untouched s hp o ho.1 ho.2]
      have hload := guiSetStyle_loaded s o.control o.property o.value
      have := ih (fun o ho => h o (by simp [ho])) _ hload
      unfold applySets at this ⊢
      rw [List.foldl_cons]
      exact ⟨this.1, this.2.trans hstep⟩

theorem guiGetStyle_fst_of_loaded (s : StyleState) (hl : s.loaded = true) (c p : ℕ) :
    (guiGetStyle s c p).1 = ofUInt32 (s.style (styleIndex c p)) := by
  unfold guiGetStyle
  rw [if_pos hl]

/-- C1 (override-ordering law): for a control `c ≠ DEFAULT` and a base
property `p`, after `GuiSetStyle(DEFAULT, p, v)` every later
`GuiGetStyle(c, p)` returns `v` as long as no later call wrote control
`c`'s slot of `p` (neither directly nor through a DEFAULT write of `p`);
and once a later `GuiSetStyle(c, p, v2)` occurred, `GuiGetStyle(c, p)`
returns `v2` as long as no later call wrote that slot. -/
theorem style_override_ordering (s0 : StyleState) (c p : ℕ) (v v2 : ℤ)
    (ops1 ops2 : List SetOp) (hc0 : c ≠ 0) (hc : c < RAYGUI_MAX_CONTROLS)
    (hp : p < RAYGUI_MAX_PROPS_BASE)
    (hv1 : -2147483648 ≤ v) (hv2 : v < 2147483648)
    (hw1 : -2147483648 ≤ v2) (hw2 : v2 < 2147483648)
    (h1 : ∀ o ∈ ops1, validOp o ∧ ¬touches o c p)
    (h2 : ∀ o ∈ ops2, validOp o ∧ ¬touches o c p) :
    (guiGetStyle (applySets (guiSetStyle s0 0 p v) ops1) c p).1 = v ∧
    (guiGetStyle (applySets (guiSetStyle
        (applySets (guiSetStyle s0 0 p v) ops1) c p v2) ops2) c p).1 = v2 := by
  have hp24 : p < 24 := by
    unfold RAYGUI_MAX_PROPS_BASE at hp
    omega
  have hAload : (guiSetStyle s0 0 p v).loaded = true := guiSetStyle_loaded _ _ _ _
  have hAval : (guiSetStyle s0 0 p v).style (styleIndex c p) = toUInt32 v := by
    unfold guiSetStyle
    exact setStyleLoaded_get_propagated _ hc0 hc hp v
  obtain ⟨hBload, hBval⟩ := applySets_untouched hp24 ops1 h1 _ hAload
  constructor
  · rw [guiGetStyle_fst_of_loaded _ hBload, hBval, hAval, ofUInt32_toUInt32 hv1 hv2]
  · have hCload : (guiSetStyle (applySets (guiSetStyle s0 0 p v) ops1) c p v2).loaded = true :=
      guiSetStyle_loaded _ _ _ _
    have hCval : (guiSetStyle (applySets (guiSetStyle s0 0 p v) ops1) c p v2).style
        (styleIndex c p) = toUInt32 v2 := by
      unfold guiSetStyle
      exact setStyleLoaded_get_self _ hc0 p v2
    obtain ⟨hDload, hDval⟩ := applySets_untouched hp24 ops2 h2 _ hCload
    rw [guiGetStyle_fst_of_loaded _ hDload, hDval, hCval, ofUInt32_toUInt32 hw1 hw2]

/-- C1 witness: the spec's own scenario — `set(DEFAULT, BORDER_WIDTH, 2)`
then `set(BUTTON, BORDER_WIDTH, 4)` gives `get(BUTTON, BORDER_WIDTH) = 4`,
with an unrelated `set(LABEL, TEXT_PADDING, 7)` in between. -/
theorem style_override_ordering_witness :
    (guiGetStyle (applySets (guiSetStyle ⟨false, fun _ => 0⟩ 0 12 2) []) 2 12).1 = 2 ∧
    (guiGetStyle (applySets (guiSetStyle
        (applySets (guiSetStyle ⟨false, fun _ => 0⟩ 0 12 2) []) 2 12 4)
        [⟨1, 13, 7⟩]) 2 12).1 = 4 :=
  style_override_ordering ⟨false, fun _ => 0⟩ 2 12 2 4 [] [⟨1, 13, 7⟩]
    (by decide) (by decide) (by decide) (by norm_num) (by norm_num)
    (by norm_num) (by norm_num) (by simp) (by decide)

/-! ## Theorems for claims C7, C8, C9, C10 -/

theorem digitsToInt_bounds (ds : List ℕ) (hlen : ds.length ≤ 3)
    (hdig : ∀ d ∈ ds, isDigit d) : 0 ≤ digitsToInt ds ∧ digitsToInt ds ≤ 999 := by
  rcases ds with _ | ⟨a, _ | ⟨b, _ | ⟨c, _ | ⟨d, tl⟩⟩⟩⟩
  · simp [digitsToInt]
  · have ha := hdig a (by simp)
    unfold isDigit at ha
    simp only [digitsToInt, List.foldl]
    omega
  · have ha := hdig a (by simp)
    have hb := hdig b (by simp)
    unfold isDigit at ha hb
    simp only [digitsToInt, List.foldl]
    omega
  · have ha := hdig a (by simp)
    have hb := hdig b (by simp)
    have hc := hdig c (by simp)
    unfold isDigit at ha hb hc
    simp only [digitsToInt, List.foldl]
    omega
  · simp at hlen

/-- C8 (amended): at a position whose byte sequence is malformed per the
decoder's own checks (bad lead byte, or a recognised lead byte with a bad
continuation byte), `GetCodepointNext` yields the fallback codepoint
`0x3f` with size 1 and the `GuiDrawText` layout cursor advances exactly
1 byte; a well-formed sequence is decoded with its encoded length, and
the layout cursor advances by that length unless the decoded codepoint
happens to be `0x3f` (overlong encodings of the fallback), in which case
it advances 1 byte; the advance is always in 1..4, so the per-line
decoding loop makes progress and terminates. -/
theorem utf8_malformed_recovery (bytes : List ℕ) (i : ℕ) :
    (¬wellFormedAt bytes i →
      getCodepointNext bytes i = (0x3f, 1) ∧ drawCursorAdvance bytes i = 1) ∧
    (wellFormedAt bytes i →
      (getCodepointNext bytes i).2 = encodedLen bytes i ∧
      drawCursorAdvance bytes i =
        (if (getCodepointNext bytes i).1 = 0x3f then 1 else encodedLen bytes i)) ∧
    1 ≤ drawCursorAdvance bytes i ∧ drawCursorAdvance bytes i ≤ 4 := by
  unfold wellFormedAt encodedLen drawCursorAdvance getCodepointNext leadClass isCont
  split_ifs <;> simp_all <;> tauto

/-- C8 witness: concrete instances of `utf8_malformed_recovery`.  The
byte 0x80 is a bad lead byte; 0xE2 0x82 0xAC is a well-formed 3-byte
sequence. -/
theorem utf8_malformed_recovery_witness :
    getCodepointNext [0x80] 0 = (0x3f, 1) ∧ (getCodepointNext [0xe2, 0x82, 0xac] 0).2 = 3 :=
  ⟨((utf8_malformed_recovery [0x80] 0).1 (by decide)).1,
    by
      have h := ((utf8_malformed_recovery [0xe2, 0x82, 0xac] 0).2.1 (by decide)).1
      simpa using h⟩

/-- C8 counterexample: the overlong 2-byte sequence 0xC0 0xBF passes the
decoder's lead/continuation checks (so per the claim it should advance
the layout cursor by its encoded length 2), decodes to the fallback
codepoint 0x3f, and `GuiDrawText` therefore advances the cursor by
1 byte, not 2. -/
theorem utf8_overlong_cursor_counterexample :
    wellFormedAt [0xc0, 0xbf] 0 ∧ encodedLen [0xc0, 0xbf] 0 = 2 ∧
    (getCodepointNext [0xc0, 0xbf] 0).1 = 0x3f ∧ drawCursorAdvance [0xc0, 0xbf] 0 = 1 := by
  decide

/-- C7 (amended): a leading icon marker is recognised exactly when the
line begins with a literal `#`, a run of 0 to 3 decimal digits, and a
closing `#`; the icon id is the decimal value of the digits (0 for the
empty run) and the cursor advances past the closing `#`.  When the first
byte is not `#`, or no `#` follows the scanned digit run, no icon is
detected (`-1`) and the cursor does not move. -/
theorem icon_marker_recognition (ds rest bytes : List ℕ) (hlen : ds.length ≤ 3)
    (hdig : ∀ d ∈ ds, isDigit d) :
    getTextIcon (35 :: (ds ++ 35 :: rest)) = (digitsToInt ds, ds.length + 2) ∧
    0 ≤ digitsToInt ds ∧ digitsToInt ds ≤ 999 ∧
    (byteAt bytes 0 ≠ 35 → getTextIcon bytes = (-1, 0)) ∧
    (byteAt bytes 0 = 35 → byteAt bytes (1 + digitRunLen bytes) ≠ 35 →
      getTextIcon bytes = (-1, 0)) := by
  obtain ⟨hnn, hub⟩ := digitsToInt_bounds ds hlen hdig
  refine ⟨?_, hnn, hub, ?_, ?_⟩
  · rcases ds with _ | ⟨a, _ | ⟨b, _ | ⟨c, _ | ⟨d, tl⟩⟩⟩⟩
    · simp [getTextIcon, digitRunLen, byteAt, isDigit, digitsToInt]
    · have ha := hdig a (by simp)
      unfold isDigit at ha
      simp [getTextIcon, digitRunLen, byteAt, isDigit, ha, digitsToInt] at hnn ⊢
      try omega
    · have ha := hdig a (by simp)
      have hb := hdig b (by simp)
      unfold isDigit at ha hb
      simp [getTextIcon, digitRunLen, byteAt, isDigit, ha, hb, digitsToInt] at hnn ⊢
      try omega
    · have ha := hdig a (by simp)
      have hb := hdig b (by simp)
      have hc := hdig c (by simp)
      unfold isDigit at ha hb hc
      simp [getTextIcon, digitRunLen, byteAt, isDigit, ha, hb, hc, digitsToInt] at hnn ⊢
      try omega
    · simp at hlen
  · intro h
    simp [getTextIcon, h]
  · intro h0 hclose
    simp only [getTextIcon, if_pos h0, if_neg hclose]

/-- C7 witness: `icon_marker_recognition` applied to the marker `#12#`
followed by `B`, and to the markerless line `B`. -/
theorem icon_marker_recognition_witness :
    getTextIcon [35, 49, 50, 35, 66] = (12, 4) ∧ getTextIcon [66] = (-1, 0) := by
  have h := icon_marker_recognition [49, 50] [66] [66] (by decide) (by decide)
  exact ⟨by simpa using h.1, h.2.2.2.1 (by decide)⟩

/-- C7 counterexample: the claim requires at least one digit (`'#'`
followed by 1-3 digits and `'#'`); on the line `##A` (zero digits) it
therefore demands no icon and no cursor movement, but the code detects
icon id 0 and advances the cursor 2 bytes. -/
theorem icon_marker_zero_digits_counterexample :
    getTextIcon [35, 35, 65] = (0, 2) ∧ getTextIcon [35, 35, 65] ≠ (-1, 0) := by
  decide

/-- C9: `GuiSetAlpha` stores its argument clamped to the unit interval:
the stored alpha equals the argument when it lies in the interval, 0 when
the argument is negative, 1 when it exceeds 1, and is always in the unit
interval. -/
theorem alpha_setter_clamps (a : ℚ) :
    (0 ≤ a → a ≤ 1 → guiSetAlpha a = a) ∧ (a < 0 → guiSetAlpha a = 0) ∧
    (1 < a → guiSetAlpha a = 1) ∧ 0 ≤ guiSetAlpha a ∧ guiSetAlpha a ≤ 1 := by
  unfold guiSetAlpha
  refine ⟨?_, ?_, ?_, ?_, ?_⟩ <;> split_ifs <;> intros <;> linarith

/-- C9 witness: `alpha_setter_clamps` at the out-of-range input 3/2. -/
theorem alpha_setter_clamps_witness : guiSetAlpha (3 / 2) = 1 :=
  (alpha_setter_clamps (3 / 2)).2.2.1 (by norm_num)

/-- C10: `GuiDisable` moves the global state to DISABLED only from
NORMAL, `GuiEnable` moves it to NORMAL only from DISABLED, and both
leave any other (e.g. forced) global state unchanged. -/
theorem enable_disable_preserve_forced (s : ℤ) :
    guiDisable STATE_NORMAL = STATE_DISABLED ∧
    (s ≠ STATE_NORMAL → guiDisable s = s) ∧
    guiEnable STATE_DISABLED = STATE_NORMAL ∧
    (s ≠ STATE_DISABLED → guiEnable s = s) := by
  unfold guiDisable guiEnable STATE_NORMAL STATE_DISABLED
  refine ⟨rfl, ?_, rfl, ?_⟩ <;> intro h <;> simp [h]

/-- C10 witness: `enable_disable_preserve_forced` at the forced state
FOCUSED, which both calls leave unchanged. -/
theorem enable_disable_preserve_forced_witness :
    guiDisable STATE_FOCUSED = STATE_FOCUSED ∧ guiEnable STATE_FOCUSED = STATE_FOCUSED :=
  ⟨(enable_disable_preserve_forced STATE_FOCUSED).2.1 (by decide),
    (enable_disable_preserve_forced STATE_FOCUSED).2.2.2 (by decide)⟩

/-! ## TextShaper lemmas and the claim C5 theorems -/

theorem ascii_mask_facts : ∀ b < 128, b &&& 0xf8 ≠ 0xf0 ∧ b &&& 0xf0 ≠ 0xe0 ∧
    b &&& 0xe0 ≠ 0xc0 ∧ b &&& 0x80 = 0 := by decide

theorem getCodepointNext_ascii (bytes : List ℕ) (i : ℕ) (h : byteAt bytes i < 128) :
    getCodepointNext bytes i = (byteAt bytes i, 1) := by
  obtain ⟨h1, h2, h3, h4⟩ := ascii_mask_facts (byteAt bytes i) h
  unfold getCodepointNext
  rw [if_neg h1, if_neg h2, if_neg h3, if_pos h4]

theorem byteAt_mem (bytes : List ℕ) (i : ℕ) (h : i < bytes.length) :
    byteAt bytes i ∈ bytes := by
  unfold byteAt
  rw [List.getD_eq_getElem bytes 0 h]
  exact List.getElem_mem h

theorem measureSize_clean (bytes : List ℕ) (hb : ∀ b ∈ bytes, 33 ≤ b ∧ b ≤ 126)
    (hlen : bytes.length ≤ 256) : measureSize bytes = bytes.length := by
  unfold measureSize
  rw [List.take_of_length_le hlen]
  have h : bytes.takeWhile (fun b => decide (b ≠ 0 ∧ b ≠ 10)) = bytes := by
    rw [List.takeWhile_eq_self_iff]
    intro x hx
    have := hb x hx
    simp only [decide_eq_true_eq]
    omega
  rw [h]

theorem measureLoop_uniform (font : Font) (sty : TextStyle) (gq : ℚ)
    (hg : ∀ cp, glyphWidth font sty cp = gq) (bytes : List ℕ)
    (hb : ∀ b ∈ bytes, b < 128) (n : ℕ) (hn : n ≤ bytes.length) :
    ∀ fuel i, n - i ≤ fuel →
      measureLoop font sty bytes n fuel i =
        ((n - i : ℕ) : ℚ) * (gq + (sty.textSpacing : ℚ)) := by
  intro fuel
  induction fuel with
  | zero =>
      intro i hi
      have h0 : n - i = 0 := by omega
      rw [h0]
      simp [measureLoop]
  | succ fuel ih =>
      intro i hfuel
      simp only [measureLoop]
      by_cases hi : i < n
      · rw [if_pos hi]
        have hmem : byteAt bytes i ∈ bytes := byteAt_mem bytes i (by omega)
        rw [getCodepointNext_ascii bytes i (by have := hb _ hmem; omega)]
        rw [hg, ih (i + 1) (by omega)]
        have h1 : ((n - i : ℕ) : ℚ) = ((n - (i + 1) : ℕ) : ℚ) + 1 := by
          have : n - i = (n - (i + 1)) + 1 := by omega
          rw [this]
          push_cast
          ring
        rw [h1]
        ring
      · rw [if_neg hi]
        have h0 : n - i = 0 := by omega
        rw [h0]
        norm_num

theorem getTextIcon_none {bytes : List ℕ} (h : byteAt bytes 0 ≠ 35) :
    getTextIcon bytes = (-1, 0) := by
  unfold getTextIcon
  rw [if_neg h]

theorem getTextWidth_uniform (font : Font) (sty : TextStyle) (gq : ℚ) (u : ℤ)
    (hg : ∀ cp, glyphWidth font sty cp = gq)
    (hu : gq + (sty.textSpacing : ℚ) = (u : ℚ)) (bytes : List ℕ)
    (hb : ∀ b ∈ bytes, 33 ≤ b ∧ b ≤ 126) (hne : bytes ≠ [])
    (hni : byteAt bytes 0 ≠ 35) (hlen : bytes.length ≤ 256) :
    getTextWidth font sty bytes = bytes.length * u := by
  have hh : byteAt bytes 0 ∈ bytes :=
    byteAt_mem bytes 0 (by cases bytes <;> simp_all)
  have h0 : byteAt bytes 0 ≠ 0 := by
    have := hb _ hh
    omega
  unfold getTextWidth
  rw [if_neg h0]
  have hio : measureIconOffset bytes = 0 := by
    unfold measureIconOffset
    rw [if_neg hni]
  rw [hio]
  simp only [List.drop_zero, gt_iff_lt, lt_irrefl, if_false]
  rw [measureSize_clean bytes hb hlen]
  rw [measureLoop_uniform font sty gq hg bytes (fun b hbm => by have := hb b hbm; omega)
    bytes.length (le_refl _) bytes.length 0 (by omega)]
  rw [hu]
  have h2 : ((bytes.length - 0 : ℕ) : ℚ) * ((u : ℤ) : ℚ) =
      (((bytes.length : ℤ) * u : ℤ) : ℚ) := by
    rw [Nat.sub_zero]
    push_cast
    ring
  rw [h2, ctrunc_intCast]

theorem dotLoop_succ (fuel : ℕ) (j e step : ℤ) :
    dotLoop (fuel + 1) j e step = if j < e then j :: dotLoop fuel (j + step) e step else [] :=
  rfl

theorem dotOffsets_three (u : ℤ) (hu : 1 ≤ u) : dotOffsets (3 * u) = [0, u, 2 * u] := by
  unfold dotOffsets
  have hstep : (3 * u).tdiv 3 = u := by
    rw [mul_comm]
    exact Int.mul_tdiv_cancel u (by norm_num)
  rw [hstep]
  obtain ⟨f, hf⟩ : ∃ f, (3 * u).toNat + 1 = f + 4 := ⟨(3 * u).toNat - 3, by omega⟩
  rw [hf, show f + 4 = (f + 3) + 1 from rfl, dotLoop_succ, if_pos (by omega : (0 : ℤ) < 3 * u),
    show f + 3 = (f + 2) + 1 from rfl, dotLoop_succ, if_pos (by omega : (0 : ℤ) + u < 3 * u),
    show f + 2 = (f + 1) + 1 from rfl, dotLoop_succ,
    if_pos (by omega : (0 : ℤ) + u + u < 3 * u), show f + 1 = f + 1 from rfl]
  cases f with
  | zero =>
      rw [show (1 : ℕ) = 0 + 1 from rfl, dotLoop_succ,
        if_neg (by omega : ¬((0 : ℤ) + u + u + u < 3 * u))]
      simp
      omega
  | succ f =>
      rw [dotLoop_succ, if_neg (by omega : ¬((0 : ℤ) + u + u + u < 3 * u))]
      simp
      omega

theorem drawLine_dead (font : Font) (sty : TextStyle) (bounds : Rect) (e tsx : ℤ)
    (posX : ℚ) (line : List ℕ) (lineSize : ℕ) (gq : ℚ) (u : ℤ)
    (hg : ∀ cp, glyphWidth font sty cp = gq)
    (hu : gq + (sty.textSpacing : ℚ) = (u : ℚ)) (hu1 : 1 ≤ u)
    (hb : ∀ b ∈ line, 33 ≤ b ∧ b ≤ 126) (hls : lineSize ≤ line.length)
    (htsx : (tsx : ℚ) > bounds.width) :
    ∀ fuel i offX, bounds.width - gq - 0 - (e : ℚ) < offX →
      drawLine font sty bounds 0 e tsx posX line lineSize fuel i offX true = [] := by
  have hu0 : (0 : ℚ) < (u : ℚ) := by exact_mod_cast hu1
  intro fuel
  induction fuel with
  | zero =>
      intro i offX h
      rfl
  | succ fuel ih =>
      intro i offX hoff
      simp only [drawLine]
      by_cases hi : i < lineSize
      · rw [if_pos hi]
        have hby := hb _ (byteAt_mem line i (by omega))
        simp only [getCodepointNext_ascii line i (by omega), hg, ite_self]
        rw [if_neg (show ¬byteAt line i = 10 by omega)]
        rw [if_pos (show byteAt line i ≠ 32 ∧ byteAt line i ≠ 9 by omega)]
        rw [if_pos htsx]
        rw [if_neg (not_le.mpr hoff)]
        rw [if_neg (show ¬(true = false) by simp)]
        dsimp only
        rw [List.nil_append]
        exact ih _ _ (by linarith)
      · rw [if_neg hi]

theorem drawLine_run (font : Font) (sty : TextStyle) (bounds : Rect) (tsx : ℤ)
    (posX : ℚ) (line : List ℕ) (lineSize : ℕ) (gq : ℚ) (u : ℤ) (k0 : ℕ)
    (hg : ∀ cp, glyphWidth font sty cp = gq)
    (hu : gq + (sty.textSpacing : ℚ) = (u : ℚ)) (hu1 : 1 ≤ u)
    (hb : ∀ b ∈ line, 33 ≤ b ∧ b ≤ 126) (hls : lineSize ≤ line.length)
    (htsx : (tsx : ℚ) > bounds.width)
    (hk0a : bounds.width - gq - 0 - ((3 * u : ℤ) : ℚ) < (k0 : ℚ) * (u : ℚ))
    (hk0b : ∀ j, j < k0 → ((j : ℕ) : ℚ) * (u : ℚ) ≤ bounds.width - gq - 0 - ((3 * u : ℤ) : ℚ))
    (hk0c : k0 < lineSize) :
    ∀ fuel i, lineSize - i ≤ fuel → i ≤ k0 →
      drawLine font sty bounds 0 (3 * u) tsx posX line lineSize fuel i
          ((i : ℚ) * (u : ℚ)) false =
        ((List.range' i (k0 - i)).map
          (fun j => ⟨byteAt line j, posX + (j : ℚ) * (u : ℚ), false⟩)) ++
        [⟨46, posX + (k0 : ℚ) * (u : ℚ), true⟩,
         ⟨46, posX + (k0 : ℚ) * (u : ℚ) + (u : ℚ), true⟩,
         ⟨46, posX + (k0 : ℚ) * (u : ℚ) + 2 * (u : ℚ), true⟩] := by
  have hu0 : (0 : ℚ) < (u : ℚ) := by exact_mod_cast hu1
  intro fuel
  induction fuel with
  | zero =>
      intro i h1 h2
      omega
  | succ fuel ih =>
      intro i hfuel hik
      have hi : i < lineSize := by omega
      simp only [drawLine]
      rw [if_pos hi]
      have hby := hb _ (byteAt_mem line i (by omega))
      simp only [getCodepointNext_ascii line i (by omega), hg, ite_self]
      rw [if_neg (show ¬byteAt line i = 10 by omega)]
      rw [if_pos (show byteAt line i ≠ 32 ∧ byteAt line i ≠ 9 by omega)]
      rw [if_pos htsx]
      rcases eq_or_lt_of_le hik with hieq | hilt
      · -- the first overflowing glyph: draw the ellipsis and stop
        subst hieq
        rw [if_neg (not_le.mpr hk0a)]
        simp only [if_true]
        rw [dotOffsets_three u hu1]
        rw [drawLine_dead font sty bounds (3 * u) tsx posX line lineSize gq u hg hu hu1
          hb hls htsx fuel _ _ (by linarith)]
        rw [List.append_nil, Nat.sub_self]
        simp only [List.range', List.map_nil, List.nil_append, List.map_cons]
        push_cast
        norm_num
      · -- a fitting glyph followed by the rest of the line
        rw [if_pos (hk0b i hilt)]
        dsimp only
        have hoffeq : (i : ℚ) * (u : ℚ) + gq + (sty.textSpacing : ℚ) =
            ((i + 1 : ℕ) : ℚ) * (u : ℚ) := by
          push_cast
          linarith
        rw [hoffeq, ih (i + 1) (by omega) (by omega)]
        have hsplit : k0 - i = (k0 - (i + 1)) + 1 := by omega
        rw [hsplit, List.range'_succ]
        simp only [List.map_cons, List.cons_append, List.nil_append]

/-- C5 (amended): for a non-empty single-line text of printable ASCII
glyphs (no spaces, tabs or icon marker) under a font whose glyphs all
share one width, with integer pen advance `u = glyphWidth + spacing`,
integral `bounds.x`, the measured width exceeding `bounds.width`, and
bounds wide enough for the ellipsis and one glyph, the NONE-wrap draw
sequence is a prefix of plain glyphs followed by exactly 3 ellipsis
dots (at pen positions `x0`, `x0+u`, `x0+2u`), and no draw is positioned
past `bounds.x + bounds.width`. -/
theorem none_wrap_ellipsis (font : Font) (sty : TextStyle) (iconScale : ℤ)
    (bounds : Rect) (alignment : ℤ) (bytes : List ℕ) (gq : ℚ) (u bx : ℤ)
    (hg : ∀ cp, glyphWidth font sty cp = gq) (hgq : 0 < gq)
    (hu : gq + (sty.textSpacing : ℚ) = (u : ℚ)) (hu1 : 1 ≤ u)
    (hb : ∀ b ∈ bytes, 33 ≤ b ∧ b ≤ 126) (hne : bytes ≠ [])
    (hni : byteAt bytes 0 ≠ 35) (hlen : bytes.length ≤ 256)
    (hx : bounds.x = ((bx : ℤ) : ℚ))
    (hwide : bounds.width < (bytes.length : ℚ) * (u : ℚ))
    (hroom : 3 * (u : ℚ) + gq ≤ bounds.width) :
    ∃ ds x0,
      guiDrawTextNone font sty iconScale bounds alignment bytes =
        ds ++ [⟨46, x0, true⟩, ⟨46, x0 + (u : ℚ), true⟩, ⟨46, x0 + 2 * (u : ℚ), true⟩] ∧
      (∀ d ∈ ds, d.ellipsis = false) ∧
      (∀ d ∈ guiDrawTextNone font sty iconScale bounds alignment bytes,
        d.x ≤ bounds.x + bounds.width) := by
  have hu0 : (0 : ℚ) < (u : ℚ) := by exact_mod_cast hu1
  have hn1 : 1 ≤ bytes.length := List.length_pos.mpr hne
  have h0byte : byteAt bytes 0 ≠ 0 := by
    have := hb _ (byteAt_mem bytes 0 (by omega))
    omega
  have hlineSize :
      (bytes.takeWhile
        (fun b => !decide (b = 0) && (!decide (b = 10) && !decide (b = 13)))).length =
        bytes.length := by
    rw [show bytes.takeWhile
        (fun b => !decide (b = 0) && (!decide (b = 10) && !decide (b = 13))) = bytes from
      List.takeWhile_eq_self_iff.mpr (fun x hx => by
        have := hb x hx
        simp only [Bool.and_eq_true, Bool.not_eq_true', decide_eq_false_iff_not]
        omega)]
  have hE : getTextWidth font sty [46, 46, 46] = 3 * u := by
    have h := getTextWidth_uniform font sty gq u hg hu [46, 46, 46] (by norm_num)
      (by simp) (by norm_num [byteAt]) (by norm_num)
    simpa using h
  have hW : getTextWidth font sty bytes = (bytes.length : ℤ) * u :=
    getTextWidth_uniform font sty gq u hg hu bytes hb hne hni hlen
  have hmain : guiDrawTextNone font sty iconScale bounds alignment bytes =
      drawLine font sty bounds 0 (3 * u) ((bytes.length : ℤ) * u) ((bx : ℤ) : ℚ) bytes
        bytes.length bytes.length 0 0 false := by
    unfold guiDrawTextNone
    rw [if_neg h0byte, getTextIcon_none hni]
    simp only [List.drop_zero]
    rw [hW, hE]
    norm_num
    rw [if_pos (⟨by exact_mod_cast hwide, h0byte⟩ :
      (bounds.width < ((bytes.length : ℕ) : ℚ) * ((u : ℤ) : ℚ) ∧ ¬ byteAt bytes 0 = 0))]
    rw [hx, ctrunc_intCast, hlineSize]
  have hTnn : (0 : ℚ) ≤ bounds.width - gq - 0 - ((3 * u : ℤ) : ℚ) := by
    push_cast
    linarith
  have hPn : bounds.width - gq - 0 - ((3 * u : ℤ) : ℚ) <
      ((bytes.length - 1 : ℕ) : ℚ) * (u : ℚ) := by
    rw [Nat.cast_sub hn1]
    push_cast
    linarith
  have hPex : ∃ k : ℕ,
      bounds.width - gq - 0 - ((3 * u : ℤ) : ℚ) < (k : ℚ) * (u : ℚ) :=
    ⟨bytes.length - 1, hPn⟩
  have hk0pack : ∃ k0 : ℕ,
      (bounds.width - gq - 0 - ((3 * u : ℤ) : ℚ) < (k0 : ℚ) * (u : ℚ)) ∧
      (∀ j, j < k0 → ((j : ℕ) : ℚ) * (u : ℚ) ≤
        bounds.width - gq - 0 - ((3 * u : ℤ) : ℚ)) ∧
      k0 < bytes.length ∧ 1 ≤ k0 := by
    refine ⟨Nat.find hPex, Nat.find_spec hPex,
      fun j hj => not_lt.mp (Nat.find_min hPex hj), ?_, ?_⟩
    · have hk0le : Nat.find hPex ≤ bytes.length - 1 := Nat.find_min' hPex hPn
      omega
    · by_contra h
      have h0 : Nat.find hPex = 0 := by omega
      have hk0a := Nat.find_spec hPex
      rw [h0] at hk0a
      norm_num at hk0a
      linarith
  obtain ⟨k0, hk0a, hk0b, hk0c, hk01⟩ := hk0pack
  have hrun := drawLine_run font sty bounds ((bytes.length : ℤ) * u) ((bx : ℤ) : ℚ) bytes
    bytes.length gq u k0 hg hu hu1 hb (le_refl _)
    (by push_cast; linarith [hwide]) hk0a hk0b hk0c bytes.length 0 (by omega) (by omega)
  rw [Nat.cast_zero, zero_mul, Nat.sub_zero] at hrun
  refine ⟨(List.range' 0 k0).map
      (fun j => ⟨byteAt bytes j, ((bx : ℤ) : ℚ) + (j : ℚ) * (u : ℚ), false⟩),
    ((bx : ℤ) : ℚ) + ((k0 : ℕ) : ℚ) * (u : ℚ), ?_, ?_, ?_⟩
  · rw [hmain, hrun]
  · intro d hd
    obtain ⟨j, hjmem, rfl⟩ := List.mem_map.mp hd
    rfl
  · intro d hd
    rw [hmain, hrun] at hd
    rcases List.mem_append.mp hd with hd | hd
    · obtain ⟨j, hjmem, rfl⟩ := List.mem_map.mp hd
      have hj : j < k0 := by
        rw [List.mem_range'] at hjmem
        obtain ⟨i, hi, rfl⟩ := hjmem
        omega
      have hfit := hk0b j hj
      push_cast at hfit
      dsimp only
      rw [hx]
      push_cast
      linarith
    · have hprev := hk0b (k0 - 1) (by omega)
      rw [Nat.cast_sub hk01] at hprev
      push_cast at hprev
      have hexp : (((k0 : ℕ) : ℚ) - 1) * (u : ℚ) =
          ((k0 : ℕ) : ℚ) * (u : ℚ) - (u : ℚ) := by ring
      rw [hexp] at hprev
      have hstep : ((k0 : ℕ) : ℚ) * (u : ℚ) ≤
          bounds.width - gq - 3 * (u : ℚ) + (u : ℚ) := by linarith
      simp only [List.mem_cons, List.not_mem_nil, or_false] at hd
      rcases hd with rfl | rfl | rfl <;> dsimp only <;> rw [hx] <;> push_cast <;> linarith

/-- Counterexample to C5 as stated: the text "A" followed by 9 spaces and
"B" (11 glyphs of advance 3) in bounds of width 30 measures 33 > 30, yet
the NONE-wrap layout draws ellipsis dots at x = 30, 33 and 36 — the last
two strictly past `bounds.x + bounds.width = 30` — because spaces advance
the pen without triggering the overflow check. -/
theorem none_wrap_ellipsis_counterexample :
    ((getTextWidth (uniformFont 2) defaultTextStyle
        ([65] ++ List.replicate 9 32 ++ [66]) : ℤ) : ℚ) > (30 : ℚ) ∧
    guiDrawTextNone (uniformFont 2) defaultTextStyle 1 ⟨0, 0, 30, 20⟩ 0
        ([65] ++ List.replicate 9 32 ++ [66]) =
      [⟨65, 0, false⟩, ⟨46, 30, true⟩, ⟨46, 33, true⟩, ⟨46, 36, true⟩] ∧
    ¬ (∀ d ∈ guiDrawTextNone (uniformFont 2) defaultTextStyle 1 ⟨0, 0, 30, 20⟩ 0
        ([65] ++ List.replicate 9 32 ++ [66]),
        d.x ≤ (⟨0, 0, 30, 20⟩ : Rect).x + (⟨0, 0, 30, 20⟩ : Rect).width) := by
  have hev : guiDrawTextNone (uniformFont 2) defaultTextStyle 1 ⟨0, 0, 30, 20⟩ 0
      ([65] ++ List.replicate 9 32 ++ [66]) =
      [⟨65, 0, false⟩, ⟨46, 30, true⟩, ⟨46, 33, true⟩, ⟨46, 36, true⟩] := by
    norm_num +decide [guiDrawTextNone, getTextIcon, getTextWidth, uniformFont,
      defaultTextStyle, measureIconOffset, measureSize, measureLoop, glyphWidth,
      scaleFactor, byteAt, getCodepointNext, ctrunc, drawLine, dotOffsets, dotLoop,
      List.replicate, Int.tdiv]
  refine ⟨?_, hev, ?_⟩
  · norm_num +decide [getTextWidth, uniformFont, defaultTextStyle, measureIconOffset,
      measureSize, measureLoop, glyphWidth, scaleFactor, byteAt, getCodepointNext,
      getTextIcon, List.replicate]
  · intro h
    have h36 := h ⟨46, 36, true⟩ (by rw [hev]; norm_num)
    norm_num at h36

theorem none_wrap_ellipsis_witness :
    ((⟨0, 0, 12, 20⟩ : Rect).width <
      (([65, 66, 67, 68, 69] : List ℕ).length : ℚ) * ((3 : ℤ) : ℚ)) ∧
    (∃ ds x0,
      guiDrawTextNone (uniformFont 2) defaultTextStyle 1 ⟨0, 0, 12, 20⟩ 0
          [65, 66, 67, 68, 69] =
        ds ++ [⟨46, x0, true⟩, ⟨46, x0 + ((3 : ℤ) : ℚ), true⟩,
          ⟨46, x0 + 2 * ((3 : ℤ) : ℚ), true⟩] ∧
      (∀ d ∈ ds, d.ellipsis = false) ∧
      (∀ d ∈ guiDrawTextNone (uniformFont 2) defaultTextStyle 1 ⟨0, 0, 12, 20⟩ 0
          [65, 66, 67, 68, 69],
        d.x ≤ (⟨0, 0, 12, 20⟩ : Rect).x + (⟨0, 0, 12, 20⟩ : Rect).width)) :=
  ⟨by norm_num,
    none_wrap_ellipsis (uniformFont 2) defaultTextStyle 1 ⟨0, 0, 12, 20⟩ 0
      [65, 66, 67, 68, 69] 2 3 0
      (fun cp => by norm_num [glyphWidth, uniformFont, defaultTextStyle, scaleFactor])
      (by norm_num) (by norm_num [defaultTextStyle]) (by norm_num)
      (by intro b hb; fin_cases hb <;> norm_num) (by simp)
      (by norm_num [byteAt]) (by norm_num) (by norm_num) (by norm_num) (by norm_num)⟩

/-! ## ColorSpace lemmas and the claim C3 / C4 theorems -/

theorem vmax3_eq (w : Vec3) : vmax3 w = max (max w.x w.y) w.z := by
  unfold vmax3
  rcases lt_or_le w.y w.x with h | h
  · simp only [if_pos h]
    rcases lt_or_le w.z w.x with h2 | h2
    · rw [if_pos h2, max_eq_left h.le, max_eq_left h2.le]
    · rw [if_neg (not_lt.mpr h2), max_eq_left h.le, max_eq_right h2]
  · simp only [if_neg (not_lt.mpr h)]
    rcases lt_or_le w.z w.y with h2 | h2
    · rw [if_pos h2, max_eq_right h, max_eq_left h2.le]
    · rw [if_neg (not_lt.mpr h2), max_eq_right h, max_eq_right h2]

theorem vmin3_eq (w : Vec3) : vmin3 w = min (min w.x w.y) w.z := by
  unfold vmin3
  rcases lt_or_le w.x w.y with h | h
  · simp only [if_pos h]
    rcases lt_or_le w.x w.z with h2 | h2
    · rw [if_pos h2, min_eq_left h.le, min_eq_left h2.le]
    · rw [if_neg (not_lt.mpr h2), min_eq_left h.le, min_eq_right h2]
  · simp only [if_neg (not_lt.mpr h)]
    rcases lt_or_le w.y w.z with h2 | h2
    · rw [if_pos h2, min_eq_right h, min_eq_left h2.le]
    · rw [if_neg (not_lt.mpr h2), min_eq_right h, min_eq_right h2]

/-- Evaluation of `ConvertHSVtoRGB` on a chromatic input whose hue falls
in sector `n`. -/
theorem hsvToRgb_sector (H s v : ℚ) (n : ℤ) (hs : ¬s ≤ 0) (hH360 : H < 360)
    (hn : 0 ≤ n) (hlo : (n : ℚ) * 60 ≤ H) (hhi : H < (n : ℚ) * 60 + 60) :
    convertHSVtoRGB ⟨H, s, v⟩ =
      (if n = 0 then ⟨v, v * (1 - s * (1 - (H / 60 - n))), v * (1 - s)⟩
       else if n = 1 then ⟨v * (1 - s * (H / 60 - n)), v, v * (1 - s)⟩
       else if n = 2 then ⟨v * (1 - s), v, v * (1 - s * (1 - (H / 60 - n)))⟩
       else if n = 3 then ⟨v * (1 - s), v * (1 - s * (H / 60 - n)), v⟩
       else if n = 4 then ⟨v * (1 - s * (1 - (H / 60 - n))), v * (1 - s), v⟩
       else ⟨v, v * (1 - s), v * (1 - s * (H / 60 - n))⟩ : Vec3) := by
  have h360 : ¬(H ≥ 360) := not_le.mpr hH360
  have hdiv1 : (n : ℚ) ≤ H / 60 := by
    rw [le_div_iff (by norm_num : (0 : ℚ) < 60)]
    linarith
  have hdiv2 : H / 60 < (n : ℚ) + 1 := by
    rw [div_lt_iff (by norm_num : (0 : ℚ) < 60)]
    push_cast
    linarith
  have hidx : hsvSectorIndex ⟨H, s, v⟩ = n := by
    unfold hsvSectorIndex
    dsimp only
    rw [if_neg h360]
    exact ctrunc_of_Ico hdiv1 (by push_cast; linarith) hn
  have hff : hsvFF ⟨H, s, v⟩ = H / 60 - (n : ℚ) := by
    unfold hsvFF
    dsimp only
    rw [if_neg h360, hidx]
  unfold convertHSVtoRGB
  dsimp only
  rw [if_neg hs, hff, hidx]

theorem vec3_ext {a b : Vec3} (h1 : a.x = b.x) (h2 : a.y = b.y) (h3 : a.z = b.z) :
    a = b := by
  cases a
  cases b
  simp_all

theorem hsvToRgb_sector0 (H s v : ℚ) (hs : ¬s ≤ 0) (hlo : 0 ≤ H) (hhi : H < 60) :
    convertHSVtoRGB ⟨H, s, v⟩ = ⟨v, v * (1 - s * (1 - H / 60)), v * (1 - s)⟩ := by
  rw [hsvToRgb_sector H s v 0 hs (by linarith) (by norm_num) (by push_cast; linarith)
    (by push_cast; linarith)]
  norm_num

theorem hsvToRgb_sector1 (H s v : ℚ) (hs : ¬s ≤ 0) (hlo : 60 ≤ H) (hhi : H < 120) :
    convertHSVtoRGB ⟨H, s, v⟩ = ⟨v * (1 - s * (H / 60 - 1)), v, v * (1 - s)⟩ := by
  rw [hsvToRgb_sector H s v 1 hs (by linarith) (by norm_num) (by push_cast; linarith)
    (by push_cast; linarith)]
  norm_num

theorem hsvToRgb_sector2 (H s v : ℚ) (hs : ¬s ≤ 0) (hlo : 120 ≤ H) (hhi : H < 180) :
    convertHSVtoRGB ⟨H, s, v⟩ = ⟨v * (1 - s), v, v * (1 - s * (1 - (H / 60 - 2)))⟩ := by
  rw [hsvToRgb_sector H s v 2 hs (by linarith) (by norm_num) (by push_cast; linarith)
    (by push_cast; linarith)]
  norm_num

theorem hsvToRgb_sector3 (H s v : ℚ) (hs : ¬s ≤ 0) (hlo : 180 ≤ H) (hhi : H < 240) :
    convertHSVtoRGB ⟨H, s, v⟩ = ⟨v * (1 - s), v * (1 - s * (H / 60 - 3)), v⟩ := by
  rw [hsvToRgb_sector H s v 3 hs (by linarith) (by norm_num) (by push_cast; linarith)
    (by push_cast; linarith)]
  norm_num

theorem hsvToRgb_sector4 (H s v : ℚ) (hs : ¬s ≤ 0) (hlo : 240 ≤ H) (hhi : H < 300) :
    convertHSVtoRGB ⟨H, s, v⟩ = ⟨v * (1 - s * (1 - (H / 60 - 4))), v * (1 - s), v⟩ := by
  rw [hsvToRgb_sector H s v 4 hs (by linarith) (by norm_num) (by push_cast; linarith)
    (by push_cast; linarith)]
  norm_num

theorem hsvToRgb_sector5 (H s v : ℚ) (hs : ¬s ≤ 0) (hlo : 300 ≤ H) (hhi : H < 360) :
    convertHSVtoRGB ⟨H, s, v⟩ = ⟨v, v * (1 - s), v * (1 - s * (H / 60 - 5))⟩ := by
  rw [hsvToRgb_sector H s v 5 hs (by linarith) (by norm_num) (by push_cast; linarith)
    (by push_cast; linarith)]
  norm_num

/-- Round trip on the chromatic branch: with nonnegative channels and
`delta` at or above the achromatic threshold, converting to HSV and back
is the identity (exactly, in the rational model). -/
theorem roundtrip_chromatic (r g b : ℚ) (hr0 : 0 ≤ r) (hg0 : 0 ≤ g) (hb0 : 0 ≤ b)
    (hδ : 1 / 100000 ≤ vmax3 ⟨r, g, b⟩ - vmin3 ⟨r, g, b⟩) :
    convertHSVtoRGB (convertRGBtoHSV ⟨r, g, b⟩) = ⟨r, g, b⟩ := by
  have hmx := vmax3_eq ⟨r, g, b⟩
  have hmn := vmin3_eq ⟨r, g, b⟩
  dsimp only at hmx hmn
  have hrle : r ≤ vmax3 ⟨r, g, b⟩ := by
    rw [hmx]
    exact le_trans (le_max_left r g) (le_max_left _ b)
  have hgle : g ≤ vmax3 ⟨r, g, b⟩ := by
    rw [hmx]
    exact le_trans (le_max_right r g) (le_max_left _ b)
  have hble : b ≤ vmax3 ⟨r, g, b⟩ := by
    rw [hmx]
    exact le_max_right _ b
  have hmnr : vmin3 ⟨r, g, b⟩ ≤ r := by
    rw [hmn]
    exact le_trans (min_le_left _ _) (min_le_left r g)
  have hmng : vmin3 ⟨r, g, b⟩ ≤ g := by
    rw [hmn]
    exact le_trans (min_le_left _ _) (min_le_right r g)
  have hmnb : vmin3 ⟨r, g, b⟩ ≤ b := by
    rw [hmn]
    exact min_le_right _ b
  have hmn0 : 0 ≤ vmin3 ⟨r, g, b⟩ := by
    rw [hmn]
    exact le_min (le_min hr0 hg0) hb0
  have hδpos : 0 < vmax3 ⟨r, g, b⟩ - vmin3 ⟨r, g, b⟩ := lt_of_lt_of_le (by norm_num) hδ
  have hmx0 : 0 < vmax3 ⟨r, g, b⟩ := by linarith
  have hsval : ¬((vmax3 ⟨r, g, b⟩ - vmin3 ⟨r, g, b⟩) / vmax3 ⟨r, g, b⟩ ≤ 0) :=
    not_le.mpr (div_pos hδpos hmx0)
  have hRGB : convertRGBtoHSV ⟨r, g, b⟩ =
      ⟨if rgbToHsvHue0 ⟨r, g, b⟩ * 60 < 0 then rgbToHsvHue0 ⟨r, g, b⟩ * 60 + 360
        else rgbToHsvHue0 ⟨r, g, b⟩ * 60,
        (vmax3 ⟨r, g, b⟩ - vmin3 ⟨r, g, b⟩) / vmax3 ⟨r, g, b⟩, vmax3 ⟨r, g, b⟩⟩ := by
    unfold convertRGBtoHSV
    rw [if_neg (not_lt.mpr hδ), if_pos hmx0]
  rw [hRGB]
  by_cases hA : r ≥ vmax3 ⟨r, g, b⟩
  · -- red is the maximum channel
    have hmxr : vmax3 ⟨r, g, b⟩ = r := le_antisymm hA hrle
    have hgr : g ≤ r := hmxr ▸ hgle
    have hbr : b ≤ r := hmxr ▸ hble
    have hrpos : 0 < r := hmxr ▸ hmx0
    have hh0 : rgbToHsvHue0 ⟨r, g, b⟩ =
        (g - b) / (vmax3 ⟨r, g, b⟩ - vmin3 ⟨r, g, b⟩) := by
      unfold rgbToHsvHue0
      dsimp only
      rw [if_pos hA]
    rcases le_or_lt b g with hbg | hgb
    · -- min is b: sector 0, or sector 1 when g = r
      have hmnb' : vmin3 ⟨r, g, b⟩ = b := by
        rw [hmn, min_eq_right hgr, min_eq_right hbg]
      rw [hmxr, hmnb'] at hh0 hδpos hsval
      rw [hmxr, hmnb', hh0]
      have hrb : 0 < r - b := hδpos
      have hq0 : 0 ≤ (g - b) / (r - b) := div_nonneg (by linarith) hrb.le
      have hq1 : (g - b) / (r - b) ≤ 1 := (div_le_one hrb).mpr (by linarith)
      rw [if_neg (by linarith : ¬((g - b) / (r - b) * 60 < 0))]
      rcases eq_or_lt_of_le hq1 with hfull | hpart
      · -- g = r: hue is exactly 60, sector 1 with ff = 0
        have hgr' : g = r := by
          field_simp [ne_of_gt hrb] at hfull
          linarith
        rw [hfull]
        rw [hsvToRgb_sector1 _ _ _ hsval (by norm_num) (by norm_num)]
        apply vec3_ext <;> dsimp only
        · field_simp
        · exact hgr'.symm
        · field_simp
      · -- sector 0
        rw [hsvToRgb_sector0 _ _ _ hsval (by linarith) (by linarith)]
        apply vec3_ext <;> dsimp only
        · field_simp
          ring
        · field_simp
    · -- g < b, min is g: hue wraps into sector 5
      have hmng' : vmin3 ⟨r, g, b⟩ = g := by
        rw [hmn, min_eq_right hgr, min_eq_left hgb.le]
      rw [hmxr, hmng'] at hh0 hδpos hsval
      rw [hmxr, hmng', hh0]
      have hrg : 0 < r - g := hδpos
      have hqm : -1 ≤ (g - b) / (r - g) := by
        rw [le_div_iff hrg]
        linarith
      have hqneg : (g - b) / (r - g) < 0 := div_neg_of_neg_of_pos (by linarith) hrg
      rw [if_pos (by linarith : (g - b) / (r - g) * 60 < 0)]
      rw [hsvToRgb_sector5 _ _ _ hsval (by linarith) (by linarith)]
      apply vec3_ext <;> dsimp only
      · field_simp
      · field_simp
        ring
  · by_cases hB : g ≥ vmax3 ⟨r, g, b⟩
    · -- green is the maximum channel (strictly above red)
      have hmxg : vmax3 ⟨r, g, b⟩ = g := le_antisymm hB hgle
      have hrg : r < g := by
        rw [ge_iff_le, hmxg] at hA
        exact lt_of_not_le hA
      have hbg : b ≤ g := hmxg ▸ hble
      have hgpos : 0 < g := hmxg ▸ hmx0
      have hh0 : rgbToHsvHue0 ⟨r, g, b⟩ =
          2 + (b - r) / (vmax3 ⟨r, g, b⟩ - vmin3 ⟨r, g, b⟩) := by
        unfold rgbToHsvHue0
        dsimp only
        rw [if_neg hA, if_pos hB]
      rcases lt_or_le b r with hbr | hrb
      · -- b < r: min is b, sector 1
        have hmnb' : vmin3 ⟨r, g, b⟩ = b := by
          rw [hmn, min_eq_left hrg.le, min_eq_right hbr.le]
        rw [hmxg, hmnb'] at hh0 hδpos hsval
        rw [hmxg, hmnb', hh0]
        have hgb : 0 < g - b := hδpos
        have hqm : -1 ≤ (b - r) / (g - b) := by
          rw [le_div_iff hgb]
          linarith
        have hqneg : (b - r) / (g - b) < 0 := div_neg_of_neg_of_pos (by linarith) hgb
        rw [if_neg (by linarith : ¬((2 + (b - r) / (g - b)) * 60 < 0))]
        rw [hsvToRgb_sector1 _ _ _ hsval (by linarith) (by linarith)]
        apply vec3_ext <;> dsimp only
        · field_simp
          ring
        · field_simp
      · -- r ≤ b: min is r, sector 2 (or 3 when b = g)
        have hmnr' : vmin3 ⟨r, g, b⟩ = r := by
          rw [hmn, min_eq_left hrg.le, min_eq_left hrb]
        rw [hmxg, hmnr'] at hh0 hδpos hsval
        rw [hmxg, hmnr', hh0]
        have hgr' : 0 < g - r := hδpos
        have hq0 : 0 ≤ (b - r) / (g - r) := div_nonneg (by linarith) hgr'.le
        have hq1 : (b - r) / (g - r) ≤ 1 := (div_le_one hgr').mpr (by linarith)
        rw [if_neg (by linarith : ¬((2 + (b - r) / (g - r)) * 60 < 0))]
        rcases eq_or_lt_of_le hq1 with hfull | hpart
        · -- b = g: hue is exactly 180, sector 3 with ff = 0
          have hbg' : b = g := by
            field_simp [ne_of_gt hgr'] at hfull
            linarith
          rw [hfull]
          rw [hsvToRgb_sector3 _ _ _ hsval (by norm_num) (by norm_num)]
          apply vec3_ext <;> dsimp only
          · field_simp
          · field_simp
            ring
          · exact hbg'.symm
        · -- sector 2
          rw [hsvToRgb_sector2 _ _ _ hsval (by linarith) (by linarith)]
          apply vec3_ext <;> dsimp only
          · field_simp
          · field_simp
            ring
    · -- blue is the maximum channel (strictly above red and green)
      have hmxb : vmax3 ⟨r, g, b⟩ = b := by
        have h1 : max r g < vmax3 ⟨r, g, b⟩ :=
          max_lt_iff.mpr ⟨lt_of_not_le hA, lt_of_not_le hB⟩
        rw [hmx] at h1 ⊢
        rcases max_cases (max r g) b with ⟨he, _⟩ | ⟨he, _⟩
        · rw [he] at h1
          exact absurd h1 (lt_irrefl _)
        · exact he
      have hrb : r < b := by
        rw [ge_iff_le, hmxb] at hA
        exact lt_of_not_le hA
      have hgb : g < b := by
        rw [ge_iff_le, hmxb] at hB
        exact lt_of_not_le hB
      have hbpos : 0 < b := hmxb ▸ hmx0
      have hh0 : rgbToHsvHue0 ⟨r, g, b⟩ =
          4 + (r - g) / (vmax3 ⟨r, g, b⟩ - vmin3 ⟨r, g, b⟩) := by
        unfold rgbToHsvHue0
        dsimp only
        rw [if_neg hA, if_neg hB]
      rcases lt_or_le r g with hrg | hgr
      · -- r < g: min is r, sector 3
        have hmnr' : vmin3 ⟨r, g, b⟩ = r := by
          rw [hmn, min_eq_left hrg.le, min_eq_left hrb.le]
        rw [hmxb, hmnr'] at hh0 hδpos hsval
        rw [hmxb, hmnr', hh0]
        have hbr' : 0 < b - r := hδpos
        have hqm : -1 < (r - g) / (b - r) := by
          rw [lt_div_iff hbr']
          linarith
        have hqneg : (r - g) / (b - r) < 0 := div_neg_of_neg_of_pos (by linarith) hbr'
        rw [if_neg (by linarith : ¬((4 + (r - g) / (b - r)) * 60 < 0))]
        rw [hsvToRgb_sector3 _ _ _ hsval (by linarith) (by linarith)]
        apply vec3_ext <;> dsimp only
        · field_simp
        · field_simp
          ring
      · -- g ≤ r: min is g, sector 4
        have hmng' : vmin3 ⟨r, g, b⟩ = g := by
          rw [hmn, min_eq_right hgr, min_eq_left hgb.le]
        rw [hmxb, hmng'] at hh0 hδpos hsval
        rw [hmxb, hmng', hh0]
        have hbg' : 0 < b - g := hδpos
        have hq0 : 0 ≤ (r - g) / (b - g) := div_nonneg (by linarith) hbg'.le
        have hq1 : (r - g) / (b - g) < 1 := by
          rw [div_lt_one hbg']
          linarith
        rw [if_neg (by linarith : ¬((4 + (r - g) / (b - g)) * 60 < 0))]
        rw [hsvToRgb_sector4 _ _ _ hsval (by linarith) (by linarith)]
        apply vec3_ext <;> dsimp only
        · field_simp
          ring
        · field_simp

/-- C3: for RGB triples in the unit cube whose maximum channel exceeds
the minimum channel by more than the achromatic epsilon `1e-5`,
converting to HSV and back is the identity (exact equality in the
rational model of the float arithmetic); below the epsilon, RGB→HSV
forces hue and saturation to 0 and the round trip returns the gray
triple `(v,v,v)` with `v` the maximum channel. -/
theorem rgb_hsv_roundtrip (r g b : ℚ) (hr0 : 0 ≤ r) (hr1 : r ≤ 1) (hg0 : 0 ≤ g)
    (hg1 : g ≤ 1) (hb0 : 0 ≤ b) (hb1 : b ≤ 1) :
    (1 / 100000 < vmax3 ⟨r, g, b⟩ - vmin3 ⟨r, g, b⟩ →
      convertHSVtoRGB (convertRGBtoHSV ⟨r, g, b⟩) = ⟨r, g, b⟩) ∧
    (vmax3 ⟨r, g, b⟩ - vmin3 ⟨r, g, b⟩ < 1 / 100000 →
      (convertRGBtoHSV ⟨r, g, b⟩).x = 0 ∧ (convertRGBtoHSV ⟨r, g, b⟩).y = 0 ∧
      convertHSVtoRGB (convertRGBtoHSV ⟨r, g, b⟩) =
        ⟨vmax3 ⟨r, g, b⟩, vmax3 ⟨r, g, b⟩, vmax3 ⟨r, g, b⟩⟩) := by
  constructor
  · intro h
    exact roundtrip_chromatic r g b hr0 hg0 hb0 (le_of_lt h)
  · intro h
    have h1 : convertRGBtoHSV ⟨r, g, b⟩ = ⟨0, 0, vmax3 ⟨r, g, b⟩⟩ := by
      unfold convertRGBtoHSV
      rw [if_pos h]
    rw [h1]
    refine ⟨rfl, rfl, ?_⟩
    unfold convertHSVtoRGB
    dsimp only
    rw [if_pos (le_refl (0 : ℚ))]

/-- C3 witness: `rgb_hsv_roundtrip` at pure red (chromatic) and at
middle gray (achromatic). -/
theorem rgb_hsv_roundtrip_witness :
    convertHSVtoRGB (convertRGBtoHSV ⟨1, 0, 0⟩) = ⟨1, 0, 0⟩ ∧
    convertHSVtoRGB (convertRGBtoHSV ⟨1/2, 1/2, 1/2⟩) = ⟨1/2, 1/2, 1/2⟩ := by
  constructor
  · exact (rgb_hsv_roundtrip 1 0 0 (by norm_num) (by norm_num) (by norm_num)
      (by norm_num) (by norm_num) (by norm_num)).1 (by norm_num [vmax3, vmin3])
  · have h := ((rgb_hsv_roundtrip (1/2) (1/2) (1/2) (by norm_num) (by norm_num)
      (by norm_num) (by norm_num) (by norm_num) (by norm_num)).2
      (by norm_num [vmax3, vmin3])).2.2
    norm_num [vmax3] at h
    exact h

/-- C4 counterexample: pure green converts to hue 120 (degrees), so the
hue component of `ConvertRGBtoHSV` does not lie in `[0,1]`. -/
theorem hsv_hue_range_counterexample :
    (convertRGBtoHSV ⟨0, 1, 0⟩).x = 120 ∧ ¬((convertRGBtoHSV ⟨0, 1, 0⟩).x ≤ 1) := by
  norm_num [convertRGBtoHSV, vmax3, vmin3, rgbToHsvHue0]

theorem rgbToHsvHue0_bounds (r g b : ℚ)
    (hδpos : 0 < vmax3 ⟨r, g, b⟩ - vmin3 ⟨r, g, b⟩) :
    -1 ≤ rgbToHsvHue0 ⟨r, g, b⟩ ∧ rgbToHsvHue0 ⟨r, g, b⟩ ≤ 5 := by
  have hmx := vmax3_eq ⟨r, g, b⟩
  have hmn := vmin3_eq ⟨r, g, b⟩
  dsimp only at hmx hmn
  have hrle : r ≤ vmax3 ⟨r, g, b⟩ := by
    rw [hmx]
    exact le_trans (le_max_left r g) (le_max_left _ b)
  have hgle : g ≤ vmax3 ⟨r, g, b⟩ := by
    rw [hmx]
    exact le_trans (le_max_right r g) (le_max_left _ b)
  have hble : b ≤ vmax3 ⟨r, g, b⟩ := by
    rw [hmx]
    exact le_max_right _ b
  have hmnr : vmin3 ⟨r, g, b⟩ ≤ r := by
    rw [hmn]
    exact le_trans (min_le_left _ _) (min_le_left r g)
  have hmng : vmin3 ⟨r, g, b⟩ ≤ g := by
    rw [hmn]
    exact le_trans (min_le_left _ _) (min_le_right r g)
  have hmnb : vmin3 ⟨r, g, b⟩ ≤ b := by
    rw [hmn]
    exact min_le_right _ b
  unfold rgbToHsvHue0
  dsimp only
  split_ifs with ha hb
  · have h1 : (g - b) / (vmax3 ⟨r, g, b⟩ - vmin3 ⟨r, g, b⟩) ≤ 1 :=
      (div_le_one hδpos).mpr (by linarith)
    have h2 : -1 ≤ (g - b) / (vmax3 ⟨r, g, b⟩ - vmin3 ⟨r, g, b⟩) := by
      rw [le_div_iff hδpos]
      linarith
    constructor <;> linarith
  · have h1 : (b - r) / (vmax3 ⟨r, g, b⟩ - vmin3 ⟨r, g, b⟩) ≤ 1 :=
      (div_le_one hδpos).mpr (by linarith)
    have h2 : -1 ≤ (b - r) / (vmax3 ⟨r, g, b⟩ - vmin3 ⟨r, g, b⟩) := by
      rw [le_div_iff hδpos]
      linarith
    constructor <;> linarith
  · have h1 : (r - g) / (vmax3 ⟨r, g, b⟩ - vmin3 ⟨r, g, b⟩) ≤ 1 :=
      (div_le_one hδpos).mpr (by linarith)
    have h2 : -1 ≤ (r - g) / (vmax3 ⟨r, g, b⟩ - vmin3 ⟨r, g, b⟩) := by
      rw [le_div_iff hδpos]
      linarith
    constructor <;> linarith

theorem convertRGBtoHSV_ranges (r g b : ℚ) (hr0 : 0 ≤ r) (hr1 : r ≤ 1)
    (hg0 : 0 ≤ g) (hg1 : g ≤ 1) (hb0 : 0 ≤ b) (hb1 : b ≤ 1) :
    0 ≤ (convertRGBtoHSV ⟨r, g, b⟩).x ∧ (convertRGBtoHSV ⟨r, g, b⟩).x < 360 ∧
    0 ≤ (convertRGBtoHSV ⟨r, g, b⟩).y ∧ (convertRGBtoHSV ⟨r, g, b⟩).y ≤ 1 ∧
    0 ≤ (convertRGBtoHSV ⟨r, g, b⟩).z ∧ (convertRGBtoHSV ⟨r, g, b⟩).z ≤ 1 := by
  have hmx := vmax3_eq ⟨r, g, b⟩
  have hmn := vmin3_eq ⟨r, g, b⟩
  dsimp only at hmx hmn
  have hmx1 : vmax3 ⟨r, g, b⟩ ≤ 1 := by
    rw [hmx]
    exact max_le (max_le hr1 hg1) hb1
  have hmx0 : 0 ≤ vmax3 ⟨r, g, b⟩ := by
    rw [hmx]
    exact le_trans hr0 (le_trans (le_max_left r g) (le_max_left _ b))
  have hmn0 : 0 ≤ vmin3 ⟨r, g, b⟩ := by
    rw [hmn]
    exact le_min (le_min hr0 hg0) hb0
  by_cases h1 : vmax3 ⟨r, g, b⟩ - vmin3 ⟨r, g, b⟩ < 1 / 100000
  · unfold convertRGBtoHSV
    rw [if_pos h1]
    dsimp only
    exact ⟨le_refl 0, by norm_num, le_refl 0, by norm_num, hmx0, hmx1⟩
  · by_cases h2 : vmax3 ⟨r, g, b⟩ > 0
    · have hδpos : 0 < vmax3 ⟨r, g, b⟩ - vmin3 ⟨r, g, b⟩ := by
        have := not_lt.mp h1
        linarith
      obtain ⟨hhm, hhp⟩ := rgbToHsvHue0_bounds r g b hδpos
      have hy0 : 0 ≤ (vmax3 ⟨r, g, b⟩ - vmin3 ⟨r, g, b⟩) / vmax3 ⟨r, g, b⟩ :=
        div_nonneg hδpos.le (le_of_lt h2)
      have hy1 : (vmax3 ⟨r, g, b⟩ - vmin3 ⟨r, g, b⟩) / vmax3 ⟨r, g, b⟩ ≤ 1 :=
        (div_le_one h2).mpr (by linarith)
      unfold convertRGBtoHSV
      rw [if_neg h1, if_pos h2]
      dsimp only
      split_ifs with hneg
      · exact ⟨by linarith, by linarith, hy0, hy1, hmx0, hmx1⟩
      · exact ⟨not_lt.mp hneg, by linarith, hy0, hy1, hmx0, hmx1⟩
    · unfold convertRGBtoHSV
      rw [if_neg h1, if_neg h2]
      dsimp only
      exact ⟨le_refl 0, by norm_num, le_refl 0, by norm_num, hmx0, hmx1⟩

theorem convertHSVtoRGB_ranges (H s v : ℚ) (hH0 : 0 ≤ H) (hs1 : s ≤ 1)
    (hv0 : 0 ≤ v) (hv1 : v ≤ 1) :
    0 ≤ (convertHSVtoRGB ⟨H, s, v⟩).x ∧ (convertHSVtoRGB ⟨H, s, v⟩).x ≤ 1 ∧
    0 ≤ (convertHSVtoRGB ⟨H, s, v⟩).y ∧ (convertHSVtoRGB ⟨H, s, v⟩).y ≤ 1 ∧
    0 ≤ (convertHSVtoRGB ⟨H, s, v⟩).z ∧ (convertHSVtoRGB ⟨H, s, v⟩).z ≤ 1 := by
  by_cases hsle : s ≤ 0
  · unfold convertHSVtoRGB
    dsimp only
    rw [if_pos hsle]
    exact ⟨hv0, hv1, hv0, hv1, hv0, hv1⟩
  · have hs0 : 0 < s := lt_of_not_le hsle
    have hnn : (0 : ℚ) ≤ (if H ≥ 360 then 0 else H) / 60 := by
      have h0 : (0 : ℚ) ≤ (if H ≥ 360 then 0 else H) := by
        split_ifs
        · norm_num
        · exact hH0
      exact div_nonneg h0 (by norm_num)
    have hval : hsvFF ⟨H, s, v⟩ =
        (if H ≥ 360 then 0 else H) / 60 - ((⌊(if H ≥ 360 then 0 else H) / 60⌋ : ℤ) : ℚ) := by
      unfold hsvFF hsvSectorIndex
      dsimp only
      rw [ctrunc_eq_floor_of_nonneg hnn]
    have hf0 : 0 ≤ hsvFF ⟨H, s, v⟩ := by
      rw [hval]
      have := Int.floor_le ((if H ≥ 360 then 0 else H) / 60)
      linarith
    have hf1 : hsvFF ⟨H, s, v⟩ < 1 := by
      rw [hval]
      have := Int.lt_floor_add_one ((if H ≥ 360 then 0 else H) / 60)
      linarith
    have hsf : 0 ≤ s * hsvFF ⟨H, s, v⟩ ∧ s * hsvFF ⟨H, s, v⟩ ≤ 1 :=
      ⟨mul_nonneg hs0.le hf0, by nlinarith⟩
    have hsf' : 0 ≤ s * (1 - hsvFF ⟨H, s, v⟩) ∧ s * (1 - hsvFF ⟨H, s, v⟩) ≤ 1 :=
      ⟨mul_nonneg hs0.le (by linarith), by nlinarith⟩
    have hp : 0 ≤ v * (1 - s) ∧ v * (1 - s) ≤ 1 :=
      ⟨mul_nonneg hv0 (by linarith), by nlinarith⟩
    have hq : 0 ≤ v * (1 - s * hsvFF ⟨H, s, v⟩) ∧ v * (1 - s * hsvFF ⟨H, s, v⟩) ≤ 1 :=
      ⟨mul_nonneg hv0 (by linarith [hsf.2]), by nlinarith [hsf.1]⟩
    have ht : 0 ≤ v * (1 - s * (1 - hsvFF ⟨H, s, v⟩)) ∧
        v * (1 - s * (1 - hsvFF ⟨H, s, v⟩)) ≤ 1 :=
      ⟨mul_nonneg hv0 (by linarith [hsf'.2]), by nlinarith [hsf'.1]⟩
    unfold convertHSVtoRGB
    dsimp only
    rw [if_neg hsle]
    split_ifs <;> dsimp only <;> refine ⟨?_, ?_, ?_, ?_, ?_, ?_⟩ <;>
      first
      | exact hv0
      | exact hv1
      | exact hp.1
      | exact hp.2
      | exact hq.1
      | exact hq.2
      | exact ht.1
      | exact ht.2

/-- C4 (amended): the conversions do not both operate on `[0,1]` floats —
hue is in degrees.  On the unit cube, `ConvertRGBtoHSV` returns hue in
`[0, 360)`, saturation in `[0,1]` and value in `[0,1]`;
`ConvertHSVtoRGB` maps any hue with saturation and value in `[0,1]` back
into the unit cube. -/
theorem hsv_component_ranges (r g b H s v : ℚ) (hr0 : 0 ≤ r) (hr1 : r ≤ 1)
    (hg0 : 0 ≤ g) (hg1 : g ≤ 1) (hb0 : 0 ≤ b) (hb1 : b ≤ 1)
    (hH0 : 0 ≤ H) (hH1 : H ≤ 360) (hs0 : 0 ≤ s) (hs1 : s ≤ 1)
    (hv0 : 0 ≤ v) (hv1 : v ≤ 1) :
    (0 ≤ (convertRGBtoHSV ⟨r, g, b⟩).x ∧ (convertRGBtoHSV ⟨r, g, b⟩).x < 360) ∧
    (0 ≤ (convertRGBtoHSV ⟨r, g, b⟩).y ∧ (convertRGBtoHSV ⟨r, g, b⟩).y ≤ 1) ∧
    (0 ≤ (convertRGBtoHSV ⟨r, g, b⟩).z ∧ (convertRGBtoHSV ⟨r, g, b⟩).z ≤ 1) ∧
    (0 ≤ (convertHSVtoRGB ⟨H, s, v⟩).x ∧ (convertHSVtoRGB ⟨H, s, v⟩).x ≤ 1) ∧
    (0 ≤ (convertHSVtoRGB ⟨H, s, v⟩).y ∧ (convertHSVtoRGB ⟨H, s, v⟩).y ≤ 1) ∧
    (0 ≤ (convertHSVtoRGB ⟨H, s, v⟩).z ∧ (convertHSVtoRGB ⟨H, s, v⟩).z ≤ 1) := by
  obtain ⟨a1, a2, a3, a4, a5, a6⟩ := convertRGBtoHSV_ranges r g b hr0 hr1 hg0 hg1 hb0 hb1
  obtain ⟨b1, b2, b3, b4, b5, b6⟩ := convertHSVtoRGB_ranges H s v hH0 hs1 hv0 hv1
  exact ⟨⟨a1, a2⟩, ⟨a3, a4⟩, ⟨a5, a6⟩, ⟨b1, b2⟩, ⟨b3, b4⟩, ⟨b5, b6⟩⟩

/-- C4 witness: `hsv_component_ranges` at pure green and mid-range HSV. -/
theorem hsv_component_ranges_witness :
    (0 ≤ (convertRGBtoHSV ⟨0, 1, 0⟩).x ∧ (convertRGBtoHSV ⟨0, 1, 0⟩).x < 360) ∧
    0 ≤ (convertHSVtoRGB ⟨180, 1/2, 1/2⟩).x ∧ (convertHSVtoRGB ⟨180, 1/2, 1/2⟩).x ≤ 1 := by
  have h := hsv_component_ranges 0 1 0 180 (1/2) (1/2) (by norm_num) (by norm_num)
    (by norm_num) (by norm_num) (by norm_num) (by norm_num) (by norm_num)
    (by norm_num) (by norm_num) (by norm_num) (by norm_num) (by norm_num)
  exact ⟨h.1, h.2.2.2.1⟩

/-! ## Theorem for claim C2 -/

theorem cClampElse_of_mem {v lo hi : ℚ} (h1 : lo ≤ v) (h2 : v ≤ hi) :
    cClampElse v lo hi = v := by
  unfold cClampElse
  split_ifs <;> linarith

/-- C2: while an exclusive-drag session owned by rectangle `A` is active
and the button is held, a slider invoked with bounds `B` differing from
`A` in any field resolves to NORMAL, leaves its value unchanged and
fires no action (given a caller value inside `[min,max]`, which the
final clamp would otherwise alter), and a button invoked with bounds `B`
resolves to NORMAL and fires no action — both regardless of the hit
test; the slider whose bounds equal `A` resolves to PRESSED and computes
the new value from the raw pointer position. -/
theorem exclusive_drag_suppression (collides : Vec2 → Rect → Bool) (g : Globals)
    (inp : Inputs) (A B : Rect) (value minValue maxValue : ℚ)
    (sliderWidth bw pad : ℤ)
    (hmode : g.guiControlExclusiveMode = true) (hrec : g.guiControlExclusiveRec = A)
    (hdown : inp.mouseDown = true) (hstate : g.guiState = STATE_NORMAL)
    (hlock : g.guiLocked = false)
    (hne : B.x ≠ A.x ∨ B.y ≠ A.y ∨ B.width ≠ A.width ∨ B.height ≠ A.height)
    (hlo : minValue ≤ value) (hhi : value ≤ maxValue) :
    (guiSliderPro collides g inp B value minValue maxValue sliderWidth bw pad).state =
      STATE_NORMAL ∧
    (guiSliderPro collides g inp B value minValue maxValue sliderWidth bw pad).value = value ∧
    (guiSliderPro collides g inp B value minValue maxValue sliderWidth bw pad).result = 0 ∧
    (guiButton collides g inp B).state = STATE_NORMAL ∧
    (guiButton collides g inp B).result = 0 ∧
    (guiSliderPro collides g inp A value minValue maxValue sliderWidth bw pad).state =
      STATE_PRESSED ∧
    (guiSliderPro collides g inp A value minValue maxValue sliderWidth bw pad).value =
      cClampElse (sliderValueFromMouse A inp.mousePos.x minValue maxValue sliderWidth)
        minValue maxValue := by
  have hBA : ¬checkBoundsId B A := by
    unfold checkBoundsId
    tauto
  have hAA : checkBoundsId A A := ⟨rfl, rfl, rfl, rfl⟩
  have hnd : STATE_NORMAL ≠ STATE_DISABLED := by decide
  have hclamp := cClampElse_of_mem hlo hhi
  refine ⟨?_, ?_, ?_, ?_, ?_, ?_, ?_⟩ <;>
    simp [guiSliderPro, guiButton, hmode, hrec, hdown, hstate, hlock, hBA, hAA, hnd,
      hclamp]

/-- C2 witness: `exclusive_drag_suppression` at a concrete frame where
the hit test reports the pointer inside every rectangle, the session is
owned by `A = (0,0,100,20)` and `B = (0,30,100,20)` differs in `y`. -/
theorem exclusive_drag_suppression_witness :
    (guiSliderPro (fun _ _ => true) ⟨0, false, true, ⟨0, 0, 100, 20⟩⟩
      ⟨⟨50, 10⟩, true, false, false, 0⟩ ⟨0, 30, 100, 20⟩ (1/2) 0 1 16 1 1).state = 0 ∧
    (guiSliderPro (fun _ _ => true) ⟨0, false, true, ⟨0, 0, 100, 20⟩⟩
      ⟨⟨50, 10⟩, true, false, false, 0⟩ ⟨0, 30, 100, 20⟩ (1/2) 0 1 16 1 1).value = 1/2 ∧
    (guiButton (fun _ _ => true) ⟨0, false, true, ⟨0, 0, 100, 20⟩⟩
      ⟨⟨50, 10⟩, true, false, false, 0⟩ ⟨0, 30, 100, 20⟩).result = 0 ∧
    (guiSliderPro (fun _ _ => true) ⟨0, false, true, ⟨0, 0, 100, 20⟩⟩
      ⟨⟨50, 10⟩, true, false, false, 0⟩ ⟨0, 0, 100, 20⟩ (1/2) 0 1 16 1 1).state = 2 := by
  have h := exclusive_drag_suppression (fun _ _ => true) ⟨0, false, true, ⟨0, 0, 100, 20⟩⟩
    ⟨⟨50, 10⟩, true, false, false, 0⟩ ⟨0, 0, 100, 20⟩ ⟨0, 30, 100, 20⟩ (1/2) 0 1 16 1 1
    rfl rfl rfl rfl rfl (by norm_num) (by norm_num) (by norm_num)
  exact ⟨h.1, h.2.1, h.2.2.2.2.1, h.2.2.2.2.2.1⟩

/-! ## ScrollCalculator lemmas and the claim C6 theorems -/

theorem ctrunc_nonpos {q : ℚ} (h : q ≤ 0) : ctrunc q ≤ 0 := by
  unfold ctrunc
  split_ifs with h1
  · exact Int.ceil_le.mpr (by exact_mod_cast h)
  · have := Int.floor_le_floor h
    simpa using this

theorem ctrunc_le_max_zero (q : ℚ) : ((ctrunc q : ℤ) : ℚ) ≤ max 0 q := by
  unfold ctrunc
  split_ifs with h1
  · have hc : (⌈q⌉ : ℚ) ≤ 0 := by
      have : ⌈q⌉ ≤ 0 := Int.ceil_le.mpr (by exact_mod_cast le_of_lt h1)
      exact_mod_cast this
    exact le_trans hc (le_max_left _ _)
  · exact le_trans (Int.floor_le q) (le_max_right _ _)

theorem cClampSeq_bounds (v lo hi : ℤ) :
    lo ≤ cClampSeq v lo hi ∧ cClampSeq v lo hi ≤ max lo hi := by
  unfold cClampSeq
  split_ifs <;> constructor <;> omega

theorem guiScrollBar_value_bounds (st : ScrollBarStyle) (collides : Vec2 → Rect → Bool)
    (g : Globals) (inp : Inputs) (bounds : Rect) (value minValue maxValue : ℤ) :
    minValue ≤ (guiScrollBar st collides g inp bounds value minValue maxValue).value ∧
    (guiScrollBar st collides g inp bounds value minValue maxValue).value ≤
      max minValue maxValue := by
  unfold guiScrollBar
  dsimp only
  split_ifs <;> dsimp only <;> exact cClampSeq_bounds _ _ _

theorem panelHasHSB_spec (ps : PanelStyle) (pb content : Rect)
    (h : panelHasHSB ps pb content = true) :
    content.width > pb.width - 2 * (ps.borderWidthD : ℚ) ∨
    (panelHasVSB ps pb content = true ∧
     content.width > pb.width - 2 * (ps.borderWidthD : ℚ) - (ps.scrollbarWidth : ℚ)) := by
  unfold panelHasHSB at h
  by_cases h0 : content.width > pb.width - 2 * (ps.borderWidthD : ℚ)
  · exact Or.inl h0
  · rw [if_pos (by simpa using h0)] at h
    simp only [Bool.and_eq_true, decide_eq_true_eq] at h
    right
    refine ⟨?_, h.2⟩
    unfold panelHasVSB
    rw [if_neg (by simp [h.1])]
    simp [h.1]

theorem panelHasVSB_spec (ps : PanelStyle) (pb content : Rect)
    (h : panelHasVSB ps pb content = true) :
    content.height > pb.height - 2 * (ps.borderWidthD : ℚ) ∨
    (panelHasHSB ps pb content = true ∧
     content.height > pb.height - 2 * (ps.borderWidthD : ℚ) - (ps.scrollbarWidth : ℚ)) := by
  unfold panelHasVSB at h
  by_cases h0 : content.height > pb.height - 2 * (ps.borderWidthD : ℚ)
  · exact Or.inl h0
  · rw [if_pos (by simpa using h0)] at h
    simp only [Bool.and_eq_true, decide_eq_true_eq] at h
    exact Or.inr h

theorem panelHBarOut_value_bounds (ps : PanelStyle) (st : ScrollBarStyle)
    (collides : Vec2 → Rect → Bool) (g : Globals) (inp : Inputs) (ctrlShift : Bool)
    (bounds content : Rect) (hasText : Bool) (scroll : Vec2) :
    ctrunc (panelHMin ps (panelBounds bounds hasText) content) ≤
      (panelHBarOut ps st collides g inp ctrlShift bounds content hasText scroll).value ∧
    (panelHBarOut ps st collides g inp ctrlShift bounds content hasText scroll).value ≤
      max (ctrunc (panelHMin ps (panelBounds bounds hasText) content))
        (ctrunc (panelHMax ps (panelBounds bounds hasText) content)) := by
  unfold panelHBarOut
  exact guiScrollBar_value_bounds _ _ _ _ _ _ _ _

theorem panelVBarOut_value_bounds (ps : PanelStyle) (st : ScrollBarStyle)
    (collides : Vec2 → Rect → Bool) (g : Globals) (inp : Inputs) (ctrlShift : Bool)
    (bounds content : Rect) (hasText : Bool) (scroll : Vec2) :
    ctrunc (panelVMin ps (panelBounds bounds hasText) content) ≤
      (panelVBarOut ps st collides g inp ctrlShift bounds content hasText scroll).value ∧
    (panelVBarOut ps st collides g inp ctrlShift bounds content hasText scroll).value ≤
      max (ctrunc (panelVMin ps (panelBounds bounds hasText) content))
        (ctrunc (panelVMax ps (panelBounds bounds hasText) content)) := by
  unfold panelVBarOut
  exact guiScrollBar_value_bounds _ _ _ _ _ _ _ _

theorem panelScrollClamped_holds (ps : PanelStyle) (st : ScrollBarStyle)
    (collides : Vec2 → Rect → Bool) (g : Globals) (inp : Inputs) (ctrlShift : Bool)
    (bounds content : Rect) (hasText : Bool) (scroll : Vec2)
    (hBW : 0 ≤ ps.borderWidthD) (hSW : 0 ≤ ps.scrollbarWidth) :
    panelScrollClamped ps st collides g inp ctrlShift bounds content hasText scroll := by
  have hx : (guiScrollPanelScroll ps st collides g inp ctrlShift bounds
      content hasText scroll).1.x =
      (if panelHasHSB ps (panelBounds bounds hasText) content = true then
        -((panelHBarOut ps st collides g inp ctrlShift bounds
          content hasText scroll).value : ℚ)
      else 0) := rfl
  have hy : (guiScrollPanelScroll ps st collides g inp ctrlShift bounds
      content hasText scroll).1.y =
      (if panelHasVSB ps (panelBounds bounds hasText) content = true then
        -((panelVBarOut ps st collides g inp ctrlShift bounds
          content hasText scroll).value : ℚ)
      else 0) := rfl
  obtain ⟨hloH, hhiH⟩ := panelHBarOut_value_bounds ps st collides g inp ctrlShift
    bounds content hasText scroll
  obtain ⟨hloV, hhiV⟩ := panelVBarOut_value_bounds ps st collides g inp ctrlShift
    bounds content hasText scroll
  set pb := panelBounds bounds hasText with hpb
  have hBWq : (0 : ℚ) ≤ (ps.borderWidthD : ℚ) := by exact_mod_cast hBW
  have hSWq : (0 : ℚ) ≤ (ps.scrollbarWidth : ℚ) := by exact_mod_cast hSW
  have hvsbw : (0 : ℤ) ≤ panelVsbw ps pb content := by
    unfold panelVsbw
    split_ifs <;> omega
  have hhsbw : (0 : ℤ) ≤ panelHsbw ps pb content := by
    unfold panelHsbw
    split_ifs <;> omega
  have hvq : (0 : ℚ) ≤ (panelVsbw ps pb content : ℚ) := by exact_mod_cast hvsbw
  have hhq : (0 : ℚ) ≤ (panelHsbw ps pb content : ℚ) := by exact_mod_cast hhsbw
  unfold panelScrollClamped
  dsimp only
  rw [← hpb]
  refine ⟨?_, ?_, ?_, ?_⟩
  · intro h
    rw [hx, h]
    exact if_neg (by simp)
  · intro h
    rw [hx, h, if_pos rfl]
    generalize hvv : (panelHBarOut ps st collides g inp ctrlShift bounds
      content hasText scroll).value = v at hloH hhiH
    have hloQ : ((ctrunc (panelHMin ps pb content) : ℤ) : ℚ) ≤ (v : ℚ) := by
      exact_mod_cast hloH
    have hhiQ : (v : ℚ) ≤
        ((max (ctrunc (panelHMin ps pb content)) (ctrunc (panelHMax ps pb content)) :
          ℤ) : ℚ) := by exact_mod_cast hhiH
    refine ⟨by linarith, by linarith, ?_⟩
    rw [neg_neg]
    have hm0 : panelHMin ps pb content ≤ 0 := by
      unfold panelHMin
      split_ifs <;> linarith
    have hmI0 : ((ctrunc (panelHMin ps pb content) : ℤ) : ℚ) ≤ 0 := by
      exact_mod_cast ctrunc_nonpos hm0
    have hMle := ctrunc_le_max_zero (panelHMax ps pb content)
    have hcv : (0 : ℚ) < content.width - (pb.width - 2 * (ps.borderWidthD : ℚ) -
        (panelVsbw ps pb content : ℚ)) := by
      rcases panelHasHSB_spec ps pb content h with hc | ⟨hV, hc⟩
      · linarith
      · have heq : panelVsbw ps pb content = ps.scrollbarWidth := by
          unfold panelVsbw
          rw [if_pos hV]
        rw [heq]
        linarith
    have hMcv : panelHMax ps pb content ≤ content.width -
        (pb.width - 2 * (ps.borderWidthD : ℚ) - (panelVsbw ps pb content : ℚ)) := by
      unfold panelHMax
      rw [if_pos h]
      split_ifs <;> linarith
    have hmaxc : ((max (ctrunc (panelHMin ps pb content))
          (ctrunc (panelHMax ps pb content)) : ℤ) : ℚ) =
        max ((ctrunc (panelHMin ps pb content) : ℤ) : ℚ)
          ((ctrunc (panelHMax ps pb content) : ℤ) : ℚ) := by
      push_cast
      rfl
    rw [hmaxc] at hhiQ
    rcases max_cases ((ctrunc (panelHMin ps pb content) : ℤ) : ℚ)
        ((ctrunc (panelHMax ps pb content) : ℤ) : ℚ) with ⟨heq, hle⟩ | ⟨heq, hle⟩ <;>
      rw [heq] at hhiQ
    · linarith
    · rcases max_cases (0 : ℚ) (panelHMax ps pb content) with ⟨heq2, hle2⟩ | ⟨heq2, hle2⟩ <;>
        rw [heq2] at hMle <;> linarith
  · intro h
    rw [hy, h]
    exact if_neg (by simp)
  · intro h
    rw [hy, h, if_pos rfl]
    generalize hvv : (panelVBarOut ps st collides g inp ctrlShift bounds
      content hasText scroll).value = v at hloV hhiV
    have hmin0 : panelVMin ps pb content = 0 := by
      unfold panelVMin
      rw [if_pos h]
    have hminI : ctrunc (panelVMin ps pb content) = 0 := by
      rw [hmin0]
      unfold ctrunc
      norm_num
    rw [hminI] at hloV hhiV
    have hloQ : (0 : ℚ) ≤ (v : ℚ) := by exact_mod_cast hloV
    refine ⟨by linarith, ?_⟩
    rw [neg_neg]
    have hMle := ctrunc_le_max_zero (panelVMax ps pb content)
    have hcv : (0 : ℚ) < content.height - (pb.height - 2 * (ps.borderWidthD : ℚ) -
        (panelHsbw ps pb content : ℚ)) := by
      rcases panelHasVSB_spec ps pb content h with hc | ⟨hH, hc⟩
      · linarith
      · have heq : panelHsbw ps pb content = ps.scrollbarWidth := by
          unfold panelHsbw
          rw [if_pos hH]
        rw [heq]
        linarith
    have hMcv : panelVMax ps pb content ≤ content.height -
        (pb.height - 2 * (ps.borderWidthD : ℚ) - (panelHsbw ps pb content : ℚ)) := by
      unfold panelVMax
      rw [if_pos h]
      linarith
    have hhiQ : (v : ℚ) ≤ ((max 0 (ctrunc (panelVMax ps pb content)) : ℤ) : ℚ) := by
      exact_mod_cast hhiV
    have hmaxc : ((max 0 (ctrunc (panelVMax ps pb content)) : ℤ) : ℚ) =
        max 0 ((ctrunc (panelVMax ps pb content) : ℤ) : ℚ) := by
      push_cast
      rfl
    rw [hmaxc] at hhiQ
    rcases max_cases (0 : ℚ) ((ctrunc (panelVMax ps pb content) : ℤ) : ℚ) with
        ⟨heq, hle⟩ | ⟨heq, hle⟩ <;> rw [heq] at hhiQ
    · linarith
    · rcases max_cases (0 : ℚ) (panelVMax ps pb content) with ⟨heq2, hle2⟩ | ⟨heq2, hle2⟩ <;>
        rw [heq2] at hMle <;> linarith

theorem thumbWithinTrack_of_track (stb : ScrollBarStyle) (bbounds : Rect)
    (htrack : 3 ≤ barTrackLen stb bbounds) : thumbWithinTrack stb bbounds := by
  unfold thumbWithinTrack barSliderLen
  have h1 : 1 ≤ barSliderSize1 stb := by
    unfold barSliderSize1
    split_ifs <;> omega
  split_ifs with hcmp
  · have hpos : (0 : ℚ) ≤ barTrackLen stb bbounds := by linarith
    rw [ctrunc_eq_floor_of_nonneg hpos]
    have h3 : (3 : ℤ) ≤ ⌊barTrackLen stb bbounds⌋ :=
      Int.le_floor.mpr (by exact_mod_cast htrack)
    have hfl : (⌊barTrackLen stb bbounds⌋ : ℚ) ≤ barTrackLen stb bbounds :=
      Int.floor_le _
    constructor
    · omega
    · push_cast
      linarith
  · exact ⟨h1, le_of_lt (not_le.mp hcmp)⟩

/-- C6 (amended): the value returned by `GuiScrollBar` is always
between `minValue` and `max minValue maxValue`; consequently the
scroll offset stored by `GuiScrollPanel` is 0 on a hidden axis and on
a visible axis lies between the negated axis maximum and the negated
axis minimum, with magnitude at most content minus viewport (the
horizontal offset may exceed 0 by up to the border width plus, on the
left side, the scrollbar width; the vertical offset is never
positive).  The thumb length lies between the 1-pixel minimum and the
track length provided the track is at least 3 pixels long — not in
general, see the counterexample. -/
theorem scroll_offset_thumb_invariant (ps : PanelStyle) (st stb : ScrollBarStyle)
    (collides : Vec2 → Rect → Bool) (g : Globals) (inp : Inputs) (ctrlShift : Bool)
    (bounds content bbounds : Rect) (hasText : Bool) (scroll : Vec2)
    (value minValue maxValue : ℤ)
    (hBW : 0 ≤ ps.borderWidthD) (hSW : 0 ≤ ps.scrollbarWidth)
    (htrack : 3 ≤ barTrackLen stb bbounds) :
    barValueClamped stb collides g inp bbounds value minValue maxValue ∧
    panelScrollClamped ps st collides g inp ctrlShift bounds content hasText scroll ∧
    thumbWithinTrack stb bbounds :=
  ⟨guiScrollBar_value_bounds stb collides g inp bbounds value minValue maxValue,
   panelScrollClamped_holds ps st collides g inp ctrlShift bounds content hasText
     scroll hBW hSW,
   thumbWithinTrack_of_track stb bbounds htrack⟩

/-- Counterexample to the C6 thumb clause as stated: with the default
style values (`SCROLL_SLIDER_SIZE` 16, `ARROWS_VISIBLE` 0) and
border/padding 0, a vertical scrollbar whose bounds are 1 by 2 has a
track of length 2, and the overflow override `(int)track - 2` makes
the drawn thumb length 0 — below any positive minimum; the full
`GuiScrollBar` embedding draws that 0-height slider. -/
theorem scroll_thumb_counterexample :
    barTrackLen ⟨0, 0, 0, 16, 12, 0⟩ ⟨0, 0, 1, 2⟩ = 2 ∧
    barSliderLen ⟨0, 0, 0, 16, 12, 0⟩ ⟨0, 0, 1, 2⟩ = 0 ∧
    ¬ thumbWithinTrack ⟨0, 0, 0, 16, 12, 0⟩ ⟨0, 0, 1, 2⟩ ∧
    (guiScrollBar ⟨0, 0, 0, 16, 12, 0⟩ (fun _ _ => false) ⟨0, false, false, ⟨0, 0, 0, 0⟩⟩
      ⟨⟨0, 0⟩, false, false, false, 0⟩ ⟨0, 0, 1, 2⟩ 0 0 10).slider.height = 0 := by
  have htr : barTrackLen ⟨0, 0, 0, 16, 12, 0⟩ ⟨0, 0, 1, 2⟩ = 2 := by
    norm_num [barTrackLen, barScrollbarRect, barArrowUpLeft, barArrowDownRight,
      barSpinnerSize, barIsVertical]
  have hsl : barSliderLen ⟨0, 0, 0, 16, 12, 0⟩ ⟨0, 0, 1, 2⟩ = 0 := by
    norm_num [barSliderLen, barSliderSize1, htr, ctrunc]
  refine ⟨htr, hsl, ?_, ?_⟩
  · intro hcontra
    rw [thumbWithinTrack, hsl] at hcontra
    norm_num at hcontra
  · norm_num [guiScrollBar, barSliderRect, hsl, barIsVertical, STATE_DISABLED]

theorem scroll_offset_thumb_invariant_witness :
    (3 : ℚ) ≤ barTrackLen ⟨0, 0, 0, 16, 12, 0⟩ ⟨0, 0, 10, 100⟩ ∧
    (barValueClamped ⟨0, 0, 0, 16, 12, 0⟩ (fun _ _ => false)
      ⟨0, false, false, ⟨0, 0, 0, 0⟩⟩ ⟨⟨0, 0⟩, false, false, false, 0⟩
      ⟨0, 0, 10, 100⟩ 5 0 10 ∧
     panelScrollClamped ⟨1, 12, 1⟩ ⟨0, 0, 0, 16, 12, 0⟩ (fun _ _ => false)
      ⟨0, false, false, ⟨0, 0, 0, 0⟩⟩ ⟨⟨0, 0⟩, false, false, false, 0⟩ false
      ⟨0, 0, 100, 100⟩ ⟨0, 0, 200, 200⟩ false ⟨0, 0⟩ ∧
     thumbWithinTrack ⟨0, 0, 0, 16, 12, 0⟩ ⟨0, 0, 10, 100⟩) :=
  ⟨by norm_num [barTrackLen, barScrollbarRect, barArrowUpLeft, barArrowDownRight,
      barSpinnerSize, barIsVertical],
   scroll_offset_thumb_invariant ⟨1, 12, 1⟩ ⟨0, 0, 0, 16, 12, 0⟩ ⟨0, 0, 0, 16, 12, 0⟩
     (fun _ _ => false) ⟨0, false, false, ⟨0, 0, 0, 0⟩⟩ ⟨⟨0, 0⟩, false, false, false, 0⟩
     false ⟨0, 0, 100, 100⟩ ⟨0, 0, 200, 200⟩ ⟨0, 0, 10, 100⟩ false ⟨0, 0⟩ 5 0 10
     (by norm_num) (by norm_num)
     (by norm_num [barTrackLen, barScrollbarRect, barArrowUpLeft, barArrowDownRight,
        barSpinnerSize, barIsVertical])⟩

end Raygui
